import Mathlib

/-!
# Verification of `placement_test/api/quiz_results.py`

A shallow embedding of the quiz-result ingestion endpoint
(`src/placement_test/api/quiz_results.py`) together with proofs about its
payload resolution, type coercion, custom-field extraction and upsert logic.

Python/JSON values are modelled by the inductive type `Json`; Python `None`
and JSON `null` are both `Json.jnull` (as produced by `json.loads`).  Python
floats are modelled by their canonical decimal representation `m / 10^s`
(Python guarantees that `repr` of a float round-trips, so a float is uniquely
described by its canonical decimal literal; exponent-form representations of
extreme magnitudes, `inf`/`nan` JSON extensions and `-0.0` are outside the
model, and none of the code under verification performs float arithmetic).

The frappe framework collaborators (`frappe.request`, `frappe.form_dict`,
`frappe.get_all`, `frappe.get_doc`, `doc.save`, `doc.insert`,
`frappe.db.commit`, `frappe.db.rollback`, `frappe.utils.get_datetime`) are
modelled by an explicit request structure, an explicit record store, a
fault-injection structure saying which store operation raises, and an
abstract date-parsing oracle.
-/

/-- A JSON / Python value as produced by `json.loads`:
`jnull` is Python `None`, `jfloat m s` is the Python float whose canonical
decimal representation is `m / 10^s` (with `s = 0` printed as `m.0`),
`jobj` keeps the dict's insertion order. -/
inductive Json where
  | jnull
  | jbool (b : Bool)
  | jint (n : Int)
  | jfloat (m : Int) (s : Nat)
  | jstr (s : String)
  | jarr (elems : List Json)
  | jobj (entries : List (String × Json))
deriving Repr

mutual

/-- Structural equality test for `Json`. -/
def jeq : Json → Json → Bool
  | .jnull, .jnull => true
  | .jbool a, .jbool b => a == b
  | .jint a, .jint b => a == b
  | .jfloat m s, .jfloat m' s' => m == m' && s == s'
  | .jstr a, .jstr b => a == b
  | .jarr xs, .jarr ys => jeqL xs ys
  | .jobj xs, .jobj ys => jeqO xs ys
  | _, _ => false

/-- Structural equality test for `Json` lists. -/
def jeqL : List Json → List Json → Bool
  | [], [] => true
  | x :: xs, y :: ys => jeq x y && jeqL xs ys
  | _, _ => false

/-- Structural equality test for `Json` object entry lists. -/
def jeqO : List (String × Json) → List (String × Json) → Bool
  | [], [] => true
  | (k, v) :: xs, (k', v') :: ys => k == k' && jeq v v' && jeqO xs ys
  | _, _ => false

end

mutual

theorem jeq_iff : ∀ a b : Json, jeq a b = true ↔ a = b
  | a, b => by
    cases a <;> cases b <;>
      simp only [jeq, Bool.and_eq_true, beq_iff_eq, Json.jbool.injEq, Json.jint.injEq,
        Json.jfloat.injEq, Json.jstr.injEq, Json.jarr.injEq, Json.jobj.injEq] <;>
      try simp
    · exact jeqL_iff _ _
    · exact jeqO_iff _ _

theorem jeqL_iff : ∀ xs ys : List Json, jeqL xs ys = true ↔ xs = ys
  | [], [] => by simp [jeqL]
  | [], _ :: _ => by simp [jeqL]
  | _ :: _, [] => by simp [jeqL]
  | x :: xs, y :: ys => by
    simp only [jeqL, Bool.and_eq_true, List.cons.injEq]
    rw [jeq_iff, jeqL_iff]

theorem jeqO_iff : ∀ xs ys : List (String × Json), jeqO xs ys = true ↔ xs = ys
  | [], [] => by simp [jeqO]
  | [], _ :: _ => by simp [jeqO]
  | _ :: _, [] => by simp [jeqO]
  | (k, v) :: xs, (k', v') :: ys => by
    simp only [jeqO, Bool.and_eq_true, List.cons.injEq, Prod.mk.injEq, beq_iff_eq]
    rw [jeq_iff, jeqO_iff, and_assoc]

end

instance : DecidableEq Json := fun a b => decidable_of_iff (jeq a b = true) (jeq_iff a b)

/-- Python truthiness (`bool(v)`) for the modelled values. -/
def pyTruthy : Json → Bool
  | .jnull => false
  | .jbool b => b
  | .jint n => n != 0
  | .jfloat m _ => m != 0
  | .jstr s => s != ""
  | .jarr l => !l.isEmpty
  | .jobj l => !l.isEmpty

/-- `dict.get(k)` returning `some` value: first entry with the key (entries of
a dict produced by `json.loads` have pairwise distinct keys). -/
def objFind (kvs : List (String × Json)) (k : String) : Option Json :=
  (kvs.find? (fun kv => kv.1 == k)).map (·.2)

/-- `dict.get(k)`: absent keys give Python `None`, i.e. `jnull`. -/
def objGetD (kvs : List (String × Json)) (k : String) : Json :=
  (objFind kvs k).getD .jnull

/-! ## Decimal digits

Our own decimal printer for naturals, so that the proofs control every
character of the serialized output. -/

/-- The character for a single decimal digit. -/
def digitChar (d : Nat) : Char := Char.ofNat (48 + d)

/-- Decimal digits with an explicit recursion budget (structural recursion, so
that the kernel can evaluate it; any budget above the digit count works). -/
def natDigitsAux : Nat → Nat → List Char
  | 0, n => [digitChar n]
  | f + 1, n =>
    if n < 10 then [digitChar n]
    else natDigitsAux f (n / 10) ++ [digitChar (n % 10)]

/-- Decimal digits of a natural number, most significant first. -/
def natDigits (n : Nat) : List Char := natDigitsAux n n

theorem natDigitsAux_irrel : ∀ f f' n : Nat, n ≤ f → n ≤ f' →
    natDigitsAux f n = natDigitsAux f' n := by
  intro f
  induction f using Nat.strong_induction_on with
  | _ f ih =>
    intro f' n hf hf'
    match f, f' with
    | 0, 0 => rfl
    | 0, f' + 1 =>
      interval_cases n
      all_goals simp [natDigitsAux]
    | f + 1, 0 =>
      interval_cases n
      all_goals simp [natDigitsAux]
    | f + 1, f' + 1 =>
      simp only [natDigitsAux]
      by_cases h : n < 10
      · simp [h]
      · simp only [if_neg h]
        rw [ih f (by omega) f' (n / 10) (by omega) (by omega)]

/-- The recursive unfolding of `natDigits`. -/
theorem natDigits_eq (n : Nat) :
    natDigits n = if n < 10 then [digitChar n]
      else natDigits (n / 10) ++ [digitChar (n % 10)] := by
  by_cases h : n < 10
  · simp only [natDigits, if_pos h]
    match n, h with
    | 0, _ => rfl
    | n + 1, h => simp [natDigitsAux, h]
  · simp only [natDigits, if_neg h]
    have h10 : n / 10 ≤ n - 1 := by omega
    match n, h with
    | n + 1, h =>
      simp only [natDigitsAux, if_neg h]
      rw [natDigitsAux_irrel n ((n + 1) / 10) ((n + 1) / 10) (by omega) (by omega)]

/-- Numeric value of a decimal digit character. -/
def digitVal (c : Char) : Nat := c.toNat - 48

/-- Value of a most-significant-first digit string. -/
def digitsToNat (cs : List Char) : Nat :=
  cs.foldl (fun a c => a * 10 + digitVal c) 0

/-- Digits of `n`, left-padded with zeros to width at least `w`. -/
def natPadL (n w : Nat) : List Char :=
  List.replicate (w - (natDigits n).length) '0' ++ natDigits n

/-- Python `repr` of an int, as characters. -/
def intReprL (n : Int) : List Char :=
  (if n < 0 then ['-'] else []) ++ natDigits n.natAbs

/-! ## Python `int()` / `float()` coercion primitives -/

/-- Python whitespace stripped by `str.strip()` / numeric constructors. -/
def isPySpace (c : Char) : Bool :=
  c == ' ' || c == '\t' || c == '\n' || c == '\r' || c == Char.ofNat 11 || c == Char.ofNat 12

/-- `str.strip()` on a character list. -/
def stripChars (cs : List Char) : List Char :=
  ((cs.dropWhile isPySpace).reverse.dropWhile isPySpace).reverse

/-- Digit group accepted by Python `int(str)`: digits with optional single
underscores strictly between digits. -/
def intDigitsOk : List Char → Bool
  | [] => false
  | [c] => c.isDigit
  | c :: c2 :: rest =>
    c.isDigit && (if c2 = '_' then intDigitsOk rest else intDigitsOk (c2 :: rest))

/-- Python `int(s)` for a string argument: strip whitespace, optional sign,
then a digit group (`ValueError` on anything else gives `none`).
Non-ASCII decimal digits accepted by CPython are outside the model. -/
def pyIntOfStr (s : String) : Option Int :=
  let parseDigits : List Char → Bool → Option Int := fun ds neg =>
    if intDigitsOk ds then
      let v : Int := ((digitsToNat (ds.filter (fun c => c ≠ '_')) : Int))
      some (if neg then -v else v)
    else none
  match stripChars s.data with
  | '-' :: rest => parseDigits rest true
  | '+' :: rest => parseDigits rest false
  | rest => parseDigits rest false

/-- A Python float value: canonical decimal `m / 10^s`, signed infinity or NaN. -/
inductive PyF where
  | finite (m : Int) (s : Nat)
  | inf (neg : Bool)
  | nan
deriving DecidableEq, Repr

/-- Strip factors of ten into the decimal exponent so that `(m, s)` is the
canonical decimal representation (`s = 0`, or the last digit of `m` nonzero). -/
def canonFloat (m : Int) : Nat → Int × Nat
  | 0 => (m, 0)
  | s + 1 => if m % 10 = 0 then canonFloat (m / 10) s else (m, s + 1)

/-- Build a finite float value from sign, mantissa digits, fractional length
and decimal exponent. -/
def mkFiniteF (neg : Bool) (digits : List Char) (fracLen : Nat) (e : Int) : PyF :=
  let v : Int := ((digitsToNat digits : Int))
  let v : Int := if neg then -v else v
  let s0 : Int := (fracLen : Int) - e
  if s0 ≤ 0 then .finite (v * (10 : Int) ^ (-s0).toNat) 0
  else
    let c := canonFloat v s0.toNat
    .finite c.1 c.2

/-- Exponent part of a float literal: `e`/`E`, optional sign, digits.
Returns the exponent (0 when absent) and demands full consumption elsewhere. -/
def parseFloatExp : List Char → Option Int
  | [] => some 0
  | c :: rest =>
    if c = 'e' ∨ c = 'E' then
      let (neg, ds) := match rest with
        | '-' :: r => (true, r)
        | '+' :: r => (false, r)
        | r => (false, r)
      if ds ≠ [] ∧ ds.all Char.isDigit then
        let v : Int := ((digitsToNat ds : Int))
        some (if neg then -v else v)
      else none
    else none

/-- Decimal part of Python `float(s)` after sign removal: digits with an
optional point (`.5` and `5.` both legal) and an optional exponent. -/
def pyFloatDecimal (cs : List Char) (neg : Bool) : Option PyF :=
  let ip := cs.takeWhile Char.isDigit
  let r1 := cs.dropWhile Char.isDigit
  match r1 with
  | '.' :: r2 =>
    let fp := r2.takeWhile Char.isDigit
    let r3 := r2.dropWhile Char.isDigit
    if ip = [] ∧ fp = [] then none
    else (parseFloatExp r3).map (fun e => mkFiniteF neg (ip ++ fp) fp.length e)
  | r =>
    if ip = [] then none
    else (parseFloatExp r).map (fun e => mkFiniteF neg ip 0 e)

/-- Python `float(s)` for a string argument (`ValueError` gives `none`).
Underscore digit grouping is outside the model. -/
def pyFloatOfStr (s : String) : Option PyF :=
  let cs := stripChars s.data
  let (neg, cs) := match cs with
    | '-' :: r => (true, r)
    | '+' :: r => (false, r)
    | r => (false, r)
  let low := cs.map Char.toLower
  if low = "inf".data ∨ low = "infinity".data then some (.inf neg)
  else if low = "nan".data then some .nan
  else pyFloatDecimal cs neg

/-- Python `int(value)`: `none` models a raised `TypeError`/`ValueError`.
`int` of a float truncates toward zero (taken on the canonical decimal;
literals within one ulp of an integer are outside the model). -/
def pyInt : Json → Option Int
  | .jint n => some n
  | .jbool b => some (if b then 1 else 0)
  | .jfloat m s => some (Int.tdiv m ((10 : Int) ^ s))
  | .jstr s => pyIntOfStr s
  | _ => none

/-- Python `float(value)`: `none` models a raised `TypeError`/`ValueError`. -/
def pyFloat : Json → Option PyF
  | .jint n => some (.finite n 0)
  | .jbool b => some (.finite (if b then 1 else 0) 0)
  | .jfloat m s => some (.finite m s)
  | .jstr s => pyFloatOfStr s
  | _ => none

/-- `_to_int` from the source: `value in (None, "", "null")` gives `None`,
otherwise `int(value)` with `TypeError`/`ValueError` caught to `None`. -/
def to_int (v : Json) : Option Int :=
  if v = .jnull ∨ v = .jstr "" ∨ v = .jstr "null" then none
  else pyInt v

/-- `_to_float` from the source: `value in (None, "", "null")` gives `None`,
otherwise `float(value)` with `TypeError`/`ValueError` caught to `None`. -/
def to_float (v : Json) : Option PyF :=
  if v = .jnull ∨ v = .jstr "" ∨ v = .jstr "null" then none
  else pyFloat v

example : to_int (.jstr "42") = some 42 := by decide
example : to_int (.jstr " -4_2 ") = some (-42) := by decide
example : to_int (.jstr "abc") = none := by decide
example : to_int (.jstr "1.5") = none := by decide
example : to_int (.jfloat 27 1) = some 2 := by decide
example : to_int (.jbool false) = some 0 := by decide
example : to_float (.jstr "87.5") = some (.finite 875 1) := by decide
example : to_float (.jstr "90") = some (.finite 90 0) := by decide
example : to_float (.jstr "1e2") = some (.finite 100 0) := by decide
example : to_float (.jstr "2.50") = some (.finite 25 1) := by decide
example : to_float (.jstr "-inf") = some (.inf true) := by decide
example : to_float (.jarr []) = none := by decide

/-! ## Python `str()` / `repr()` -/

/-- Hex digit character (lowercase). -/
def hexDigitChar (d : Nat) : Char := if d < 10 then digitChar d else Char.ofNat (87 + d)

/-- One character of Python `repr` of a `str` (simplified: the single-quote
form is always used; Python's quote-choice heuristic for strings containing
quotes is not modelled). -/
def reprEscChar (c : Char) : List Char :=
  if c = '\\' then ['\\', '\\']
  else if c = Char.ofNat 39 then ['\\', Char.ofNat 39]
  else if c = '\n' then ['\\', 'n']
  else if c = '\r' then ['\\', 'r']
  else if c = '\t' then ['\\', 't']
  else if c.toNat < 32 then ['\\', 'x', hexDigitChar (c.toNat / 16), hexDigitChar (c.toNat % 16)]
  else [c]

/-- Python `repr` of a `str`, as characters. -/
def pyStrReprL (s : String) : List Char :=
  Char.ofNat 39 :: s.data.foldr (fun c acc => reprEscChar c ++ acc) [Char.ofNat 39]

/-- The unsigned part of the decimal representation of `a / 10^s`. -/
def floatBodyL (a : Nat) (s : Nat) : List Char :=
  if s = 0 then natDigits a ++ ['.', '0']
  else
    let ds := natPadL a (s + 1)
    ds.take (ds.length - s) ++ '.' :: ds.drop (ds.length - s)

/-- Canonical decimal representation of the float `m / 10^s`, e.g. `87.5`,
`-0.05`, `5.0` (positional notation; Python switches to exponent notation
for extreme magnitudes, which is outside the model). -/
def floatReprL (m : Int) (s : Nat) : List Char :=
  (if m < 0 then ['-'] else []) ++ floatBodyL m.natAbs s

mutual

/-- Python `repr(value)` for the modelled values. -/
def pyRepr : Json → String
  | .jnull => "None"
  | .jbool b => if b then "True" else "False"
  | .jint n => String.mk (intReprL n)
  | .jfloat m s => String.mk (floatReprL m s)
  | .jstr s => String.mk (pyStrReprL s)
  | .jarr xs => "[" ++ pyReprElems xs ++ "]"
  | .jobj kvs => String.mk [Char.ofNat 123] ++ pyReprMembers kvs ++ String.mk [Char.ofNat 125]

/-- `repr` of list elements joined with `, `. -/
def pyReprElems : List Json → String
  | [] => ""
  | [x] => pyRepr x
  | x :: y :: xs => pyRepr x ++ ", " ++ pyReprElems (y :: xs)

/-- `repr` of dict entries joined with `, `. -/
def pyReprMembers : List (String × Json) → String
  | [] => ""
  | [(k, v)] => String.mk (pyStrReprL k) ++ ": " ++ pyRepr v
  | (k, v) :: kv2 :: kvs =>
    String.mk (pyStrReprL k) ++ ": " ++ pyRepr v ++ ", " ++ pyReprMembers (kv2 :: kvs)

end

/-- Python `str(value)`: identity on strings, `repr` otherwise (they agree for
`None`, booleans, ints, floats, lists and dicts). -/
def pyStr : Json → String
  | .jstr s => s
  | v => pyRepr v

/-! ## `_to_datetime`

`frappe.utils.get_datetime` is an external collaborator: it is modelled by an
abstract oracle `gdt` returning a parsed datetime, `none` standing for a
raised parse error.  A Python `datetime` is bounded as in CPython
(`MINYEAR = 1 ≤ year ≤ MAXYEAR = 9999`, etc.), which the structure carries. -/

/-- A parsed datetime as returned by the permissive date parser. -/
structure DT where
  year : Nat
  month : Nat
  day : Nat
  hour : Nat
  minute : Nat
  second : Nat
  year_le : year ≤ 9999
  month_le : month ≤ 12
  day_le : day ≤ 31
  hour_le : hour ≤ 23
  minute_le : minute ≤ 59
  second_le : second ≤ 59

/-- Zero-padded decimal rendering, width at least `w` (`strftime` field). -/
def padNum (n w : Nat) : String := String.mk (natPadL n w)

/-- `dt.strftime("%Y-%m-%d %H:%M:%S")`. -/
def strftimeYmdHMS (d : DT) : String :=
  padNum d.year 4 ++ "-" ++ padNum d.month 2 ++ "-" ++ padNum d.day 2 ++ " " ++
    padNum d.hour 2 ++ ":" ++ padNum d.minute 2 ++ ":" ++ padNum d.second 2

/-- `_to_datetime` from the source: falsy input gives `None`; otherwise
`get_datetime` + `strftime`, any exception caught to `None`. -/
def to_datetime (gdt : Json → Option DT) (v : Json) : Option String :=
  if ¬ pyTruthy v then none
  else (gdt v).map strftimeYmdHMS

/-! ## `_extract_custom_value` -/

/-- `candidate not in (None, "")`. -/
def valNonEmpty (v : Json) : Bool := v != .jnull && v != .jstr ""

/-- `payload.get("fields") or {}` (and the analogous `or`-defaults). -/
def orEmptyObj (v : Json) : Json := if pyTruthy v then v else .jobj []

/-- `payload.get("custom_fields") or []`. -/
def orEmptyList (v : Json) : Json := if pyTruthy v then v else .jarr []

/-- The scan `for field_value in fields.values(): if isinstance(field_value,
dict) and field_value.get("label") == label: item = field_value; break`. -/
def labelScan (fkvs : List (String × Json)) (label : String) : Option Json :=
  (fkvs.find? (fun kv => match kv.2 with
    | .jobj o => objGetD o "label" == .jstr label
    | _ => false)).map (·.2)

/-- The `item` variable after the first block: `fields.get(slug)`, replaced by
the label-scan result only when falsy. -/
def fieldsItem (fkvs : List (String × Json)) (slug label : String) : Json :=
  let item := objGetD fkvs slug
  if pyTruthy item then item
  else match labelScan fkvs label with
    | some fv => fv
    | none => item

/-- The first block of `_extract_custom_value` (the `fields` mapping). -/
def extractBlock12 (kvs : List (String × Json)) (slug label : String) : Option String :=
  match orEmptyObj (objGetD kvs "fields") with
  | .jobj fkvs =>
    match fieldsItem fkvs slug label with
    | .jobj o =>
      let candidate := objGetD o "value"
      if valNonEmpty candidate then some (pyStr candidate) else none
    | _ => none
  | _ => none

/-- The `custom_fields` loop: first matching dict entry with a non-empty
value wins; matching entries with empty values are skipped. -/
def scanEntries : List Json → String → String → Option String
  | [], _, _ => none
  | e :: rest, slug, label =>
    match e with
    | .jobj o =>
      if objGetD o "slug" == .jstr slug || objGetD o "label" == .jstr label then
        let candidate := objGetD o "value"
        if valNonEmpty candidate then some (pyStr candidate)
        else scanEntries rest slug label
      else scanEntries rest slug label
    | _ => scanEntries rest slug label

/-- The `custom_fields` block of `_extract_custom_value`. -/
def extractCustomFieldsList (kvs : List (String × Json)) (slug label : String) : Option String :=
  match orEmptyList (objGetD kvs "custom_fields") with
  | .jarr entries => scanEntries entries slug label
  | _ => none

/-- The `custom_field_values` block of `_extract_custom_value`. -/
def extractCFV (kvs : List (String × Json)) (slug : String) : Option String :=
  match orEmptyObj (objGetD kvs "custom_field_values") with
  | .jobj o =>
    let candidate := objGetD o slug
    if valNonEmpty candidate then some (pyStr candidate) else none
  | _ => none

/-- The tail of `_extract_custom_value` after the `fields` block. -/
def extract34 (kvs : List (String × Json)) (slug label : String) : Option String :=
  match extractCustomFieldsList kvs slug label with
  | some s => some s
  | none => extractCFV kvs slug

/-- `_extract_custom_value(payload, slug, label)` from the source, on the
entries of the payload dict. -/
def extract_custom_value (kvs : List (String × Json)) (slug label : String) : Option String :=
  match extractBlock12 kvs slug label with
  | some s => some s
  | none => extract34 kvs slug label

/-! ## `json.dumps(payload, ensure_ascii=False, separators=(",", ":"))` -/

/-- JSON string escaping of one character, as `json.dumps(ensure_ascii=False)`
performs it: only the quote, the backslash and control characters are
escaped; everything else is emitted literally. -/
def escChar (c : Char) : List Char :=
  if c = '"' then ['\\', '"']
  else if c = '\\' then ['\\', '\\']
  else if c = '\n' then ['\\', 'n']
  else if c = '\t' then ['\\', 't']
  else if c = '\r' then ['\\', 'r']
  else if c = Char.ofNat 8 then ['\\', 'b']
  else if c = Char.ofNat 12 then ['\\', 'f']
  else if c.toNat < 32 then ['\\', 'u', '0', '0', hexDigitChar (c.toNat / 16), hexDigitChar (c.toNat % 16)]
  else [c]

/-- JSON escaping of a character sequence. -/
def escStr (cs : List Char) : List Char := cs.foldr (fun c acc => escChar c ++ acc) []

/-- A JSON string literal, quotes included. -/
def dumpStrLit (s : String) : List Char := '"' :: escStr s.data ++ ['"']

mutual

/-- `json.dumps(v, ensure_ascii=False, separators=(",", ":"))`, as characters. -/
def dumps : Json → List Char
  | .jnull => ['n', 'u', 'l', 'l']
  | .jbool true => ['t', 'r', 'u', 'e']
  | .jbool false => ['f', 'a', 'l', 's', 'e']
  | .jint n => intReprL n
  | .jfloat m s => floatReprL m s
  | .jstr s => dumpStrLit s
  | .jarr xs => '[' :: dumpsElems xs ++ [']']
  | .jobj kvs => Char.ofNat 123 :: dumpsMembers kvs ++ [Char.ofNat 125]

/-- Array elements joined with `,`. -/
def dumpsElems : List Json → List Char
  | [] => []
  | [x] => dumps x
  | x :: y :: xs => dumps x ++ ',' :: dumpsElems (y :: xs)

/-- Object members `"key":value` joined with `,`. -/
def dumpsMembers : List (String × Json) → List Char
  | [] => []
  | [(k, v)] => dumpStrLit k ++ ':' :: dumps v
  | (k, v) :: kv2 :: kvs => dumpStrLit k ++ ':' :: dumps v ++ ',' :: dumpsMembers (kv2 :: kvs)

end

/-- `json.dumps(...)` as a `String`. -/
def dumpsStr (v : Json) : String := String.mk (dumps v)

/-! ## `json.loads`

A recursive-descent parser over the character list, with an explicit
recursion budget (any budget at least the nesting need of the value works;
the top-level entry point uses the input length, which always suffices for
inputs produced by `dumps`).  Python extensions outside strict JSON
(`NaN`/`Infinity` constants) and the combination of UTF-16 surrogate-pair
escapes are not modelled. -/

/-- JSON whitespace. -/
def isJsonWs (c : Char) : Bool := c == ' ' || c == '\t' || c == '\n' || c == '\r'

/-- Skip insignificant whitespace. -/
def skipWs (cs : List Char) : List Char := cs.dropWhile isJsonWs

/-- Value of a hex digit character, if any. -/
def hexVal (c : Char) : Option Nat :=
  if c.isDigit then some (c.toNat - 48)
  else if 'a' ≤ c ∧ c ≤ 'f' then some (c.toNat - 87)
  else if 'A' ≤ c ∧ c ≤ 'F' then some (c.toNat - 70)
  else none

/-- The single-character string escapes. -/
def unescChar (c : Char) : Option Char :=
  if c = '"' then some '"'
  else if c = '\\' then some '\\'
  else if c = '/' then some '/'
  else if c = 'b' then some (Char.ofNat 8)
  else if c = 'f' then some (Char.ofNat 12)
  else if c = 'n' then some '\n'
  else if c = 'r' then some '\r'
  else if c = 't' then some '\t'
  else none

/-- Parse a JSON string body (after the opening quote), in strict mode
(unescaped control characters are rejected). -/
def parseStringBody : List Char → Option (List Char × List Char)
  | [] => none
  | c :: r =>
    if c = '"' then some ([], r)
    else if c = '\\' then
      match r with
      | [] => none
      | e :: r2 =>
        if e = 'u' then
          match r2 with
          | h1 :: h2 :: h3 :: h4 :: r3 =>
            match hexVal h1, hexVal h2, hexVal h3, hexVal h4 with
            | some v1, some v2, some v3, some v4 =>
              (parseStringBody r3).map (fun p =>
                (Char.ofNat (((v1 * 16 + v2) * 16 + v3) * 16 + v4) :: p.1, p.2))
            | _, _, _, _ => none
          | _ => none
        else
          match unescChar e with
          | some ec => (parseStringBody r2).map (fun p => (ec :: p.1, p.2))
          | none => none
    else if c.toNat < 32 then none
    else (parseStringBody r).map (fun p => (c :: p.1, p.2))

/-- Is this character a JSON number character that `takeWhile` would consume
as a digit run terminator check (digits only; structure chars stop runs). -/
def numberStart (c : Char) : Bool := c == '-' || c.isDigit

/-- Exponent part of a JSON number: empty, or `e`/`E` sign digits.
Returns `none` on malformed exponent, `some (none, rest)` when absent. -/
def parseJsonExp : List Char → Option (Option Int × List Char)
  | [] => some (none, [])
  | c :: r =>
    if c = 'e' ∨ c = 'E' then
      let (neg, r2) : Bool × List Char := match r with
        | '-' :: r' => (true, r')
        | '+' :: r' => (false, r')
        | r' => (false, r')
      let ds := r2.takeWhile Char.isDigit
      let r3 := r2.dropWhile Char.isDigit
      if ds = [] then none
      else
        let v : Int := ((digitsToNat ds : Int))
        some (some (if neg then -v else v), r3)
    else some (none, c :: r)

/-- Build the parsed number: an `int` when there is neither a fractional part
nor an exponent, otherwise a `float` in canonical decimal form (this is how
`json.loads` chooses between `int` and `float`). -/
def mkJsonNumber (neg : Bool) (ip fp : List Char) (hasFrac : Bool) (e : Option Int) : Json :=
  if ¬ hasFrac ∧ e = none then
    let v : Int := ((digitsToNat ip : Int))
    .jint (if neg then -v else v)
  else
    match mkFiniteF neg (ip ++ fp) fp.length (e.getD 0) with
    | .finite m s => .jfloat m s
    | _ => .jnull

/-- Split a leading minus sign. -/
def splitSign : List Char → Bool × List Char
  | [] => (false, [])
  | c :: r => if c = '-' then (true, r) else (false, c :: r)

/-- Parse a JSON number (grammar: `-? int frac? exp?`, no leading zeros):
the part after the sign has been split off. -/
def parseNumberCore (neg : Bool) (cs1 : List Char) : Option (Json × List Char) :=
  let ip := cs1.takeWhile Char.isDigit
  let r1 := cs1.dropWhile Char.isDigit
  if ip = [] then none
  else if ip.head? = some '0' ∧ ip.length ≠ 1 then none
  else
    match r1 with
    | [] => (parseJsonExp []).map (fun p => (mkJsonNumber neg ip [] false p.1, p.2))
    | c :: r2 =>
      if c = '.' then
        let fp := r2.takeWhile Char.isDigit
        let r3 := r2.dropWhile Char.isDigit
        if fp = [] then none
        else
          (parseJsonExp r3).map (fun p => (mkJsonNumber neg ip fp true p.1, p.2))
      else
        (parseJsonExp (c :: r2)).map (fun p => (mkJsonNumber neg ip [] false p.1, p.2))

def parseNumber (cs : List Char) : Option (Json × List Char) :=
  parseNumberCore (splitSign cs).1 (splitSign cs).2

/-- Insert into the entry list as Python dict insertion does: an existing key
keeps its position and gets the new value, a new key is appended. -/
def objInsert (kvs : List (String × Json)) (k : String) (v : Json) : List (String × Json) :=
  match kvs with
  | [] => [(k, v)]
  | (k0, v0) :: rest => if k0 = k then (k0, v) :: rest else (k0, v0) :: objInsert rest k v

/-- Consume an exact character. -/
def expectChar (c : Char) : List Char → Option (List Char)
  | [] => none
  | c' :: r => if c' = c then some r else none

/-- Consume an exact character sequence. -/
def expectChars : List Char → List Char → Option (List Char)
  | [], cs => some cs
  | _ :: _, [] => none
  | e :: es, c :: cs => if c = e then expectChars es cs else none

mutual

/-- Parse one JSON value (after optional whitespace). -/
def parseValue : Nat → List Char → Option (Json × List Char)
  | 0, _ => none
  | f + 1, cs =>
    match skipWs cs with
    | [] => none
    | c :: r =>
      if numberStart c then parseNumber (c :: r)
      else if c = 'n' then (expectChars ['u', 'l', 'l'] r).map (fun r2 => (.jnull, r2))
      else if c = 't' then (expectChars ['r', 'u', 'e'] r).map (fun r2 => (.jbool true, r2))
      else if c = 'f' then (expectChars ['a', 'l', 's', 'e'] r).map (fun r2 => (.jbool false, r2))
      else if c = '"' then (parseStringBody r).map (fun p => (.jstr (String.mk p.1), p.2))
      else if c = '[' then
        match skipWs r with
        | [] => none
        | c2 :: r2 =>
          if c2 = ']' then some (.jarr [], r2)
          else
            match parseValue f (c2 :: r2) with
            | some (v, r3) => parseArrayRest f r3 [v]
            | none => none
      else if c = Char.ofNat 123 then
        match skipWs r with
        | [] => none
        | c2 :: r2 =>
          if c2 = Char.ofNat 125 then some (.jobj [], r2)
          else if c2 = '"' then
            match parseStringBody r2 with
            | some (kcs, r3) =>
              match skipWs r3 with
              | [] => none
              | c3 :: r4 =>
                if c3 = ':' then
                  match parseValue f r4 with
                  | some (v, r5) => parseObjRest f r5 [(String.mk kcs, v)]
                  | none => none
                else none
            | none => none
          else none
      else none

/-- Parse the rest of an array after at least one element. -/
def parseArrayRest : Nat → List Char → List Json → Option (Json × List Char)
  | 0, _, _ => none
  | f + 1, cs, acc =>
    match skipWs cs with
    | [] => none
    | c :: r =>
      if c = ',' then
        match parseValue f r with
        | some (v, r2) => parseArrayRest f r2 (acc ++ [v])
        | none => none
      else if c = ']' then some (.jarr acc, r)
      else none

/-- Parse the rest of an object after at least one member. -/
def parseObjRest : Nat → List Char → List (String × Json) → Option (Json × List Char)
  | 0, _, _ => none
  | f + 1, cs, acc =>
    match skipWs cs with
    | [] => none
    | c :: r =>
      if c = ',' then
        match skipWs r with
        | [] => none
        | c2 :: r2 =>
          if c2 = '"' then
            match parseStringBody r2 with
            | some (kcs, r3) =>
              match skipWs r3 with
              | [] => none
              | c3 :: r4 =>
                if c3 = ':' then
                  match parseValue f r4 with
                  | some (v, r5) => parseObjRest f r5 (objInsert acc (String.mk kcs) v)
                  | none => none
                else none
            | none => none
          else none
      else if c = Char.ofNat 125 then some (.jobj acc, r)
      else none

end

/-- `json.loads(s)`: parse one value, demand only whitespace afterwards. -/
def parseJson (s : String) : Option Json :=
  match parseValue (s.data.length + 1) s.data with
  | some (v, rest) => if skipWs rest = [] then some v else none
  | none => none

example : parseJson "null" = some .jnull := by decide
example : parseJson " [1, 2.50, \"a\"] " = some (.jarr [.jint 1, .jfloat 25 1, .jstr "a"]) := by
  decide
example : parseJson "01" = none := by decide
example : parseJson "1e2" = some (.jfloat 100 0) := by decide

example :
    parseJson "\x7b\"a\":1,\"b\":2,\"a\":3\x7d" = some (.jobj [("a", .jint 3), ("b", .jint 2)]) := by
  decide
example :
    parseJson (dumpsStr (.jobj [("x", .jarr [.jnull, .jbool true, .jfloat 875 1])])) =
      some (.jobj [("x", .jarr [.jnull, .jbool true, .jfloat 875 1])]) := by decide

/-! ## Lemmas about decimal digit strings -/

theorem digitChar_isDigit {d : Nat} (h : d < 10) : (digitChar d).isDigit = true := by
  interval_cases d <;> decide

theorem digitVal_digitChar {d : Nat} (h : d < 10) : digitVal (digitChar d) = d := by
  interval_cases d <;> decide

theorem digitChar_eq_zero {d : Nat} (h : d < 10) : digitChar d = '0' → d = 0 := by
  interval_cases d <;> decide

theorem natDigits_ne_nil (n : Nat) : natDigits n ≠ [] := by
  rw [natDigits_eq]
  split <;> simp

theorem natDigits_all_digit (n : Nat) : ∀ c ∈ natDigits n, c.isDigit = true := by
  induction n using Nat.strong_induction_on with
  | _ n ih =>
    rw [natDigits_eq]
    split
    · next h => simpa using digitChar_isDigit h
    · next h =>
      intro c hc
      rcases List.mem_append.mp hc with h1 | h1
      · exact ih (n / 10) (by omega) c h1
      · simp only [List.mem_singleton] at h1
        subst h1
        exact digitChar_isDigit (by omega)

/-- `digitsToNat` with an arbitrary accumulator. -/
theorem digitsToNat_foldl (a : Nat) (cs : List Char) :
    cs.foldl (fun x c => x * 10 + digitVal c) a = a * 10 ^ cs.length + digitsToNat cs := by
  induction cs generalizing a with
  | nil => simp [digitsToNat]
  | cons c cs ih =>
    simp only [List.foldl_cons, List.length_cons, digitsToNat]
    rw [ih (a * 10 + digitVal c), ih (0 * 10 + digitVal c)]
    ring

theorem digitsToNat_append (xs ys : List Char) :
    digitsToNat (xs ++ ys) = digitsToNat xs * 10 ^ ys.length + digitsToNat ys := by
  simp only [digitsToNat, List.foldl_append]
  rw [digitsToNat_foldl]
  rfl

theorem digitsToNat_natDigits (n : Nat) : digitsToNat (natDigits n) = n := by
  induction n using Nat.strong_induction_on with
  | _ n ih =>
    rw [natDigits_eq]
    split
    · next h => simp [digitsToNat, digitVal_digitChar h]
    · next h =>
      rw [digitsToNat_append, ih (n / 10) (by omega)]
      simp only [List.length_singleton, pow_one, digitsToNat, List.foldl_cons, List.foldl_nil]
      rw [digitVal_digitChar (by omega : n % 10 < 10)]
      omega

theorem digitsToNat_replicate_zero (k : Nat) (xs : List Char) :
    digitsToNat (List.replicate k '0' ++ xs) = digitsToNat xs := by
  induction k with
  | zero => simp
  | succ k ih => simpa [digitsToNat, List.replicate_succ] using ih

theorem natDigits_head_zero (n : Nat) : (natDigits n).head? = some '0' → n = 0 := by
  induction n using Nat.strong_induction_on with
  | _ n ih =>
    rw [natDigits_eq]
    split
    · next h =>
      intro hh
      simp only [List.head?_cons, Option.some.injEq] at hh
      exact digitChar_eq_zero h hh
    · next h =>
      intro hh
      rw [List.head?_append_of_ne_nil _ (natDigits_ne_nil (n / 10))] at hh
      have := ih (n / 10) (by omega) hh
      omega

theorem natDigits_length_lt (n : Nat) (h : 10 ≤ n) : 2 ≤ (natDigits n).length := by
  rw [natDigits_eq, if_neg (by omega)]
  have := natDigits_ne_nil (n / 10)
  simp only [List.length_append, List.length_singleton]
  cases hne : natDigits (n / 10) with
  | nil => exact absurd hne this
  | cons a l => simp

theorem natDigits_length_le {n k : Nat} (hk : 1 ≤ k) (h : n < 10 ^ k) :
    (natDigits n).length ≤ k := by
  induction k generalizing n with
  | zero => omega
  | succ k ih =>
    rw [natDigits_eq]
    split
    · simp
    · next hn =>
      have hk1 : 1 ≤ k := by
        by_contra hk0
        have : k = 0 := by omega
        subst this
        simp at h
        omega
      have hdiv : n / 10 < 10 ^ k := by
        have h2 : 10 ^ (k + 1) = 10 ^ k * 10 := by ring
        omega
      have := ih hk1 hdiv
      simp only [List.length_append, List.length_singleton]
      omega

/-! ## String literal roundtrip -/

theorem escStr_cons (c : Char) (cs : List Char) : escStr (c :: cs) = escChar c ++ escStr cs := rfl

theorem hexVal_hexDigitChar {d : Nat} (h : d < 16) : hexVal (hexDigitChar d) = some d := by
  interval_cases d <;> decide

theorem parseStringBody_esc (cs rest : List Char) :
    parseStringBody (escStr cs ++ '"' :: rest) = some (cs, rest) := by
  induction cs with
  | nil =>
    show parseStringBody ('"' :: rest) = some ([], rest)
    rw [parseStringBody.eq_def]
    simp
  | cons c cs ih =>
    rw [escStr_cons, List.append_assoc]
    unfold escChar
    split_ifs with h1 h2 h3 h4 h5 h6 h7 h8
    · subst h1
      simp only [List.cons_append, List.nil_append]
      rw [parseStringBody.eq_def]
      simp [unescChar, ih]
    · subst h2
      simp only [List.cons_append, List.nil_append]
      rw [parseStringBody.eq_def]
      simp [unescChar, ih]
    · subst h3
      simp only [List.cons_append, List.nil_append]
      rw [parseStringBody.eq_def]
      simp [unescChar, ih]
    · subst h4
      simp only [List.cons_append, List.nil_append]
      rw [parseStringBody.eq_def]
      simp [unescChar, ih]
    · subst h5
      simp only [List.cons_append, List.nil_append]
      rw [parseStringBody.eq_def]
      simp [unescChar, ih]
    · subst h6
      simp only [List.cons_append, List.nil_append]
      rw [parseStringBody.eq_def]
      simp [unescChar, ih]
    · subst h7
      simp only [List.cons_append, List.nil_append]
      rw [parseStringBody.eq_def]
      simp [unescChar, ih]
    · have e1 : hexVal (hexDigitChar (c.toNat / 16)) = some (c.toNat / 16) :=
        hexVal_hexDigitChar (by omega)
      have e2 : hexVal (hexDigitChar (c.toNat % 16)) = some (c.toNat % 16) :=
        hexVal_hexDigitChar (by omega)
      have hc : ((0 * 16 + 0) * 16 + c.toNat / 16) * 16 + c.toNat % 16 = c.toNat := by omega
      simp only [List.cons_append, List.nil_append]
      rw [parseStringBody.eq_def]
      simp only [if_neg (by decide : ¬('\\' : Char) = '"'), if_pos rfl,
        if_pos (rfl : ('u' : Char) = 'u')]
      simp only [show hexVal '0' = some 0 from rfl, e1, e2, ih, Option.map_some]
      rw [hc, Char.ofNat_toNat]
      simp
    · simp only [List.cons_append]
      rw [parseStringBody.eq_def]
      simp [if_neg h1, if_neg h2, if_neg h8, ih]

/-! ## Number roundtrip -/

/-- The characters that may legally follow a serialized value inside `dumps`
output: end of input, comma, or a closing bracket. -/
def boundary : List Char → Bool
  | [] => true
  | c :: _ => c == ',' || c == ']' || c == Char.ofNat 125

theorem boundary_cases {rest : List Char} (h : boundary rest = true) :
    rest = [] ∨ ∃ c r, rest = c :: r ∧ (c = ',' ∨ c = ']' ∨ c = Char.ofNat 125) := by
  cases rest with
  | nil => exact .inl rfl
  | cons c r =>
    refine .inr ⟨c, r, rfl, ?_⟩
    simpa [boundary, or_assoc] using h

theorem isDigit_ne_minus {c : Char} (h : c.isDigit = true) : ¬ c = '-' := by
  intro hc
  subst hc
  exact absurd h (by decide)

theorem takeWhile_drop_of_head {rest : List Char}
    (h : ∀ c r, rest = c :: r → Char.isDigit c = false) :
    rest.takeWhile Char.isDigit = [] ∧ rest.dropWhile Char.isDigit = rest := by
  cases rest with
  | nil => exact ⟨rfl, rfl⟩
  | cons c r =>
    have hc := h c r rfl
    simp [List.takeWhile_cons, List.dropWhile_cons, hc]

theorem boundary_head_not_digit {rest : List Char} (hb : boundary rest = true) :
    ∀ c r, rest = c :: r → Char.isDigit c = false := by
  intro c r hr
  rcases boundary_cases hb with h | ⟨c', r', he, hc⟩
  · simp [hr] at h
  · rw [hr] at he
    injection he with h1 _
    subst h1
    rcases hc with rfl | rfl | rfl <;> decide

theorem digits_run_split {ds rest : List Char} (hds : ∀ c ∈ ds, c.isDigit = true)
    (h : ∀ c r, rest = c :: r → Char.isDigit c = false) :
    (ds ++ rest).takeWhile Char.isDigit = ds ∧ (ds ++ rest).dropWhile Char.isDigit = rest := by
  obtain ⟨h1, h2⟩ := takeWhile_drop_of_head h
  exact ⟨by rw [List.takeWhile_append_of_pos hds, h1, List.append_nil],
    by rw [List.dropWhile_append_of_pos hds, h2]⟩

theorem parseJsonExp_boundary {rest : List Char} (hb : boundary rest = true) :
    parseJsonExp rest = some (none, rest) := by
  rcases boundary_cases hb with rfl | ⟨c, r, rfl, hc⟩
  · rfl
  · rcases hc with rfl | rfl | rfl <;> simp [parseJsonExp]

theorem natDigits_no_leading_zero (n : Nat) :
    ¬ ((natDigits n).head? = some '0' ∧ (natDigits n).length ≠ 1) := by
  rintro ⟨h0, hl⟩
  have hn := natDigits_head_zero n h0
  subst hn
  exact hl rfl

theorem splitSign_digits {ds rest : List Char} (hds : ∀ c ∈ ds, c.isDigit = true)
    (hne : ds ≠ []) : splitSign (ds ++ rest) = (false, ds ++ rest) := by
  cases ds with
  | nil => exact absurd rfl hne
  | cons c t =>
    have hc : c.isDigit = true := hds c (by simp)
    simp [splitSign, isDigit_ne_minus hc]

theorem parseNumberCore_digits (neg : Bool) (n : Nat) (rest : List Char)
    (hb : boundary rest = true) :
    parseNumberCore neg (natDigits n ++ rest) =
      some (.jint (if neg then -(n : Int) else (n : Int)), rest) := by
  have hdig := natDigits_all_digit n
  have hsplit := @digits_run_split (natDigits n) rest hdig (boundary_head_not_digit hb)
  have hlead := natDigits_no_leading_zero n
  have hexp := parseJsonExp_boundary hb
  have hval : digitsToNat (natDigits n) = n := digitsToNat_natDigits _
  simp only [parseNumberCore]
  rw [hsplit.1, hsplit.2, if_neg (natDigits_ne_nil n), if_neg hlead]
  rcases boundary_cases hb with rfl | ⟨c, r, rfl, hc⟩
  · rw [hexp]
    simp [mkJsonNumber, hval]
  · have hcd : ¬ c = '.' := by rcases hc with rfl | rfl | rfl <;> decide
    dsimp only
    rw [if_neg hcd, hexp]
    simp [mkJsonNumber, hval]

theorem parseNumber_intRepr (n : Int) (rest : List Char) (hb : boundary rest = true) :
    parseNumber (intReprL n ++ rest) = some (.jint n, rest) := by
  by_cases hneg : n < 0
  · have hrw : intReprL n ++ rest = '-' :: (natDigits n.natAbs ++ rest) := by
      simp [intReprL, if_pos hneg]
    have hss : splitSign ('-' :: (natDigits n.natAbs ++ rest)) =
        (true, natDigits n.natAbs ++ rest) := by simp [splitSign]
    rw [hrw, parseNumber, hss]
    dsimp only
    rw [parseNumberCore_digits true n.natAbs rest hb]
    have hv : (if (true = true) then -(n.natAbs : Int) else (n.natAbs : Int)) = n := by
      rw [if_pos rfl]
      omega
    rw [hv]
  · have hrw : intReprL n ++ rest = natDigits n.natAbs ++ rest := by
      simp [intReprL, if_neg hneg]
    rw [hrw, parseNumber,
      splitSign_digits (natDigits_all_digit n.natAbs) (natDigits_ne_nil _)]
    dsimp only
    rw [parseNumberCore_digits false n.natAbs rest hb]
    have hv : (if (false = true) then -(n.natAbs : Int) else (n.natAbs : Int)) = n := by
      rw [if_neg (by simp)]
      omega
    rw [hv]

theorem natPadL_all_digit (n w : Nat) : ∀ c ∈ natPadL n w, c.isDigit = true := by
  intro c hc
  rcases List.mem_append.mp hc with h | h
  · rw [List.eq_of_mem_replicate h]
    decide
  · exact natDigits_all_digit n c h

theorem digitsToNat_natPadL (n w : Nat) : digitsToNat (natPadL n w) = n := by
  rw [natPadL, digitsToNat_replicate_zero, digitsToNat_natDigits]

theorem natPadL_length (n w : Nat) :
    (natPadL n w).length = max w (natDigits n).length := by
  simp only [natPadL, List.length_append, List.length_replicate]
  omega

theorem head_take_of_pos {α : Type} (xs : List α) (k : Nat) (hk : 1 ≤ k) :
    (xs.take k).head? = xs.head? := by
  cases xs with
  | nil => simp
  | cons x t =>
    match k, hk with
    | k + 1, _ => simp

theorem splitSign_not_minus {cs : List Char} (h : ∀ c r, cs = c :: r → ¬ c = '-') :
    splitSign cs = (false, cs) := by
  cases cs with
  | nil => rfl
  | cons c r => simp [splitSign, h c r rfl]

theorem canonFloat_mul10 (x : Int) : canonFloat (x * 10) 1 = (x, 0) := by
  have h1 : (x * 10) % 10 = 0 := Int.mul_emod_left x 10
  have h2 : (x * 10) / 10 = x := by omega
  show (if (x * 10) % 10 = 0 then canonFloat ((x * 10) / 10) 0 else (x * 10, 1)) = (x, 0)
  rw [if_pos h1, h2]
  rfl

theorem canonFloat_neg_mul10 (x : Int) : canonFloat (-(x * 10)) 1 = (-x, 0) := by
  rw [show -(x * 10) = (-x) * 10 by ring, canonFloat_mul10]

theorem canonFloat_id (m : Int) (s : Nat) (h : ¬ m % 10 = 0) :
    canonFloat m (s + 1) = (m, s + 1) := by
  show (if m % 10 = 0 then canonFloat (m / 10) s else (m, s + 1)) = (m, s + 1)
  rw [if_neg h]

theorem parseNumberCore_floatBody (neg : Bool) (a : Nat) (s : Nat)
    (hcan : s = 0 ∨ ¬ ((if neg then -(a : Int) else (a : Int)) % 10 = 0))
    (rest : List Char) (hb : boundary rest = true) :
    parseNumberCore neg (floatBodyL a s ++ rest) =
      some (.jfloat (if neg then -(a : Int) else (a : Int)) s, rest) := by
  have hexp := parseJsonExp_boundary hb
  cases s with
  | zero =>
    have hdig := natDigits_all_digit a
    have hbody : floatBodyL a 0 ++ rest = natDigits a ++ ('.' :: '0' :: rest) := by
      simp [floatBodyL]
    have hsplit := @digits_run_split (natDigits a) ('.' :: '0' :: rest) hdig
      (by rintro c r ⟨rfl, rfl⟩; decide)
    rw [hbody, parseNumberCore]
    rw [hsplit.1, hsplit.2, if_neg (natDigits_ne_nil a), if_neg (natDigits_no_leading_zero a)]
    dsimp only
    rw [if_pos rfl]
    have htk : List.takeWhile Char.isDigit ('0' :: rest) = ['0'] ∧
        List.dropWhile Char.isDigit ('0' :: rest) = rest := by
      have := @digits_run_split ['0'] rest
        (by intro c hc; simp at hc; subst hc; decide) (boundary_head_not_digit hb)
      simpa using this
    rw [htk.1, htk.2, if_neg (show ¬ (['0'] : List Char) = [] by simp), hexp]
    simp only [Option.map_some']
    have hv : digitsToNat (natDigits a ++ ['0']) = a * 10 := by
      rw [digitsToNat_append, digitsToNat_natDigits]
      simp [digitsToNat, digitVal]
    have h10 : ((digitsToNat (natDigits a ++ ['0']) : Int)) = (a : Int) * 10 := by
      rw [hv]
      push_cast
      ring
    cases neg with
    | false => simp [mkJsonNumber, mkFiniteF, h10, canonFloat_mul10]
    | true => simp [mkJsonNumber, mkFiniteF, h10, canonFloat_neg_mul10]
  | succ s' =>
    set s := s' + 1 with hs
    have hm10 : ¬ ((if neg then -(a : Int) else (a : Int)) % 10 = 0) := by
      rcases hcan with h | h
      · omega
      · exact h
    set ds := natPadL a (s + 1) with hds
    have hdsdig : ∀ c ∈ ds, c.isDigit = true := natPadL_all_digit a (s + 1)
    have hL : ds.length = max (s + 1) (natDigits a).length := natPadL_length a (s + 1)
    have hLs : s + 1 ≤ ds.length := by omega
    have htake_dig : ∀ c ∈ ds.take (ds.length - s), c.isDigit = true :=
      fun c hc => hdsdig c (List.take_subset _ _ hc)
    have hdrop_dig : ∀ c ∈ ds.drop (ds.length - s), c.isDigit = true :=
      fun c hc => hdsdig c (List.drop_subset _ _ hc)
    have htlen : (ds.take (ds.length - s)).length = ds.length - s := by
      rw [List.length_take]
      omega
    have hdlen : (ds.drop (ds.length - s)).length = s := by
      rw [List.length_drop]
      omega
    have hbody : floatBodyL a s ++ rest =
        ds.take (ds.length - s) ++ ('.' :: (ds.drop (ds.length - s) ++ rest)) := by
      simp [floatBodyL, hs, hds]
    have hsplit := @digits_run_split (ds.take (ds.length - s)) ('.' :: (ds.drop (ds.length - s) ++ rest)) htake_dig
      (by rintro c r ⟨rfl, rfl⟩; decide)
    have hsplit2 := @digits_run_split (ds.drop (ds.length - s)) rest hdrop_dig (boundary_head_not_digit hb)
    rw [hbody, parseNumberCore]
    rw [hsplit.1, hsplit.2]
    have hne : ds.take (ds.length - s) ≠ [] := by
      intro h
      have := congrArg List.length h
      simp [htlen] at this
      omega
    rw [if_neg hne]
    have hlead : ¬ ((ds.take (ds.length - s)).head? = some '0' ∧
        (ds.take (ds.length - s)).length ≠ 1) := by
      rintro ⟨h0, hl⟩
      rw [htlen] at hl
      have hge2 : 2 ≤ ds.length - s := by omega
      have hdl : (natDigits a).length = ds.length := by omega
      have hds_eq : ds = natDigits a := by
        rw [hds, natPadL]
        have : (s + 1) - (natDigits a).length = 0 := by omega
        rw [this]
        rfl
      rw [head_take_of_pos _ _ (by omega), hds_eq] at h0
      have ha := natDigits_head_zero a h0
      subst ha
      have : (natDigits 0).length = 1 := rfl
      omega
    rw [if_neg hlead]
    dsimp only
    rw [if_pos rfl, hsplit2.1, hsplit2.2]
    have hfpne : ds.drop (ds.length - s) ≠ [] := by
      intro h
      have := congrArg List.length h
      simp [hdlen] at this
    rw [if_neg hfpne, hexp]
    simp only [Option.map_some']
    have hv : ((digitsToNat (ds.take (ds.length - s) ++ ds.drop (ds.length - s)) : Int)) =
        (a : Int) := by
      rw [List.take_append_drop, hds, digitsToNat_natPadL]
    have hsfrac : ((ds.drop (ds.length - s)).length : Int) - Option.getD none 0 = (s : Int) := by
      rw [hdlen]
      simp
    have hmf : mkFiniteF neg (ds.take (ds.length - s) ++ ds.drop (ds.length - s))
        (ds.drop (ds.length - s)).length (Option.getD none 0) =
        .finite (if neg then -(a : Int) else (a : Int)) s := by
      simp only [mkFiniteF, hv, hsfrac]
      rw [if_neg (show ¬ ((s : Int) ≤ 0) by omega)]
      rw [show ((s : Int)).toNat = s' + 1 from by omega]
      rw [canonFloat_id _ s' hm10]
    have hgoal : mkJsonNumber neg (ds.take (ds.length - s)) (ds.drop (ds.length - s)) true none =
        .jfloat (if neg then -(a : Int) else (a : Int)) s := by
      rw [mkJsonNumber]
      rw [if_neg (show ¬ (¬ (true : Bool) = true ∧ (none : Option Int) = none) by simp)]
      rw [hmf]
    rw [hgoal]

theorem floatBodyL_zero (a : Nat) : floatBodyL a 0 = natDigits a ++ ['.', '0'] := by
  rw [floatBodyL, if_pos rfl]

theorem floatBodyL_succ (a s' : Nat) :
    floatBodyL a (s' + 1) =
      (natPadL a (s' + 2)).take ((natPadL a (s' + 2)).length - (s' + 1)) ++
        '.' :: (natPadL a (s' + 2)).drop ((natPadL a (s' + 2)).length - (s' + 1)) := by
  rw [floatBodyL, if_neg (by omega : ¬ s' + 1 = 0)]

/-- The first character of `floatBodyL` is a decimal digit. -/
theorem floatBodyL_head_digit (a : Nat) (s : Nat) :
    ∀ c r rest, floatBodyL a s ++ rest = c :: r → c.isDigit = true := by
  intro c r rest hcr
  cases s with
  | zero =>
    rw [floatBodyL_zero] at hcr
    obtain ⟨c0, t0, h0⟩ : ∃ c0 t0, natDigits a = c0 :: t0 := by
      cases h : natDigits a with
      | nil => exact absurd h (natDigits_ne_nil _)
      | cons x y => exact ⟨x, y, rfl⟩
    rw [h0] at hcr
    simp only [List.cons_append, List.cons.injEq] at hcr
    have := natDigits_all_digit a c0 (by rw [h0]; simp)
    rw [← hcr.1]
    exact this
  | succ s' =>
    rw [floatBodyL_succ] at hcr
    set ds := natPadL a (s' + 2) with hds
    have hLs : s' + 2 ≤ ds.length := by
      rw [hds, natPadL_length]
      exact le_max_left _ _
    obtain ⟨c0, t0, h0⟩ : ∃ c0 t0, ds.take (ds.length - (s' + 1)) = c0 :: t0 := by
      cases h : ds.take (ds.length - (s' + 1)) with
      | nil =>
        have hlen := congrArg List.length h
        rw [List.length_take] at hlen
        simp only [List.length_nil] at hlen
        omega
      | cons x y => exact ⟨x, y, rfl⟩
    rw [h0] at hcr
    simp only [List.cons_append, List.cons.injEq] at hcr
    have : c0.isDigit = true := natPadL_all_digit a (s' + 2) c0
      (List.take_subset _ _ (by rw [h0]; simp))
    rw [← hcr.1]
    exact this

theorem parseNumber_floatRepr (m : Int) (s : Nat) (hcan : s = 0 ∨ ¬ (m % 10 = 0))
    (rest : List Char) (hb : boundary rest = true) :
    parseNumber (floatReprL m s ++ rest) = some (.jfloat m s, rest) := by
  have hcan' : s = 0 ∨ ¬ ((if m < 0 then -(m.natAbs : Int) else (m.natAbs : Int)) % 10 = 0) := by
    rcases hcan with h | h
    · exact .inl h
    · refine .inr ?_
      have hv : (if m < 0 then -(m.natAbs : Int) else (m.natAbs : Int)) = m := by
        by_cases hm : m < 0
        · rw [if_pos hm]
          omega
        · rw [if_neg hm]
          omega
      rw [hv]
      exact h
  by_cases hneg : m < 0
  · have hrw : floatReprL m s ++ rest = '-' :: (floatBodyL m.natAbs s ++ rest) := by
      simp [floatReprL, if_pos hneg]
    have hss : splitSign ('-' :: (floatBodyL m.natAbs s ++ rest)) =
        (true, floatBodyL m.natAbs s ++ rest) := by simp [splitSign]
    rw [hrw, parseNumber, hss]
    dsimp only
    rw [parseNumberCore_floatBody true m.natAbs s (by simpa [hneg] using hcan') rest hb]
    have hv : (if (true : Bool) then -(m.natAbs : Int) else (m.natAbs : Int)) = m := by
      rw [if_pos rfl]
      omega
    rw [hv]
  · have hrw : floatReprL m s ++ rest = floatBodyL m.natAbs s ++ rest := by
      simp [floatReprL, if_neg hneg]
    have hbodyhead : ∀ c r, floatBodyL m.natAbs s ++ rest = c :: r → ¬ c = '-' := by
      intro c r hcr hcm
      have := floatBodyL_head_digit m.natAbs s c r rest hcr
      subst hcm
      exact absurd this (by decide)
    rw [hrw, parseNumber, splitSign_not_minus hbodyhead]
    dsimp only
    rw [parseNumberCore_floatBody false m.natAbs s (by simpa [hneg] using hcan') rest hb]
    have hv : (if (false : Bool) then -(m.natAbs : Int) else (m.natAbs : Int)) = m := by
      rw [if_neg (by simp)]
      omega
    rw [hv]

/-! ## Value roundtrip -/

/-- Distinctness of dict keys (true of every dict `json.loads` produces). -/
def nodupKeys : List (String × Json) → Bool
  | [] => true
  | (k, _) :: rest => !(rest.any (fun kv => kv.1 == k)) && nodupKeys rest

mutual

/-- Well-formed values: floats canonical, dict keys distinct — the invariants
guaranteed for every value that comes out of `json.loads` or a Python dict. -/
def jwf : Json → Bool
  | .jfloat m s => decide (s = 0 ∨ ¬ (m % 10 = 0))
  | .jarr xs => jwfL xs
  | .jobj kvs => nodupKeys kvs && jwfO kvs
  | _ => true

/-- `jwf` on every list element. -/
def jwfL : List Json → Bool
  | [] => true
  | x :: xs => jwf x && jwfL xs

/-- `jwf` on every entry value. -/
def jwfO : List (String × Json) → Bool
  | [] => true
  | (_, v) :: kvs => jwf v && jwfO kvs

end

mutual

/-- A sufficient recursion budget for `parseValue` on the serialization. -/
def jfuel : Json → Nat
  | .jarr [] => 1
  | .jarr (x :: xs) => 1 + max (jfuel x) (jfuelL xs)
  | .jobj [] => 1
  | .jobj ((_, v) :: kvs) => 1 + max (jfuel v) (jfuelO kvs)
  | _ => 1

/-- Budget for `parseArrayRest` on the remaining elements. -/
def jfuelL : List Json → Nat
  | [] => 1
  | x :: xs => 1 + max (jfuel x) (jfuelL xs)

/-- Budget for `parseObjRest` on the remaining members. -/
def jfuelO : List (String × Json) → Nat
  | [] => 1
  | (_, v) :: kvs => 1 + max (jfuel v) (jfuelO kvs)

end

/-- The serialization of the elements after the first, each with its comma. -/
def dElemsRest : List Json → List Char
  | [] => []
  | v :: vs => ',' :: dumps v ++ dElemsRest vs

/-- The serialization of the members after the first, each with its comma. -/
def dMembersRest : List (String × Json) → List Char
  | [] => []
  | (k, v) :: kvs => ',' :: dumpStrLit k ++ ':' :: dumps v ++ dMembersRest kvs

theorem dumpsElems_eq : ∀ (x : Json) (xs : List Json),
    dumpsElems (x :: xs) = dumps x ++ dElemsRest xs
  | x, [] => by simp [dumpsElems, dElemsRest]
  | x, y :: ys => by
    have h1 : dumpsElems (x :: y :: ys) = dumps x ++ ',' :: dumpsElems (y :: ys) := by
      simp [dumpsElems]
    rw [h1, dumpsElems_eq y ys]
    simp [dElemsRest]

theorem dumpsMembers_eq : ∀ (k : String) (v : Json) (kvs : List (String × Json)),
    dumpsMembers ((k, v) :: kvs) = dumpStrLit k ++ ':' :: dumps v ++ dMembersRest kvs
  | k, v, [] => by simp [dumpsMembers, dMembersRest]
  | k, v, (k2, v2) :: kvs => by
    have h1 : dumpsMembers ((k, v) :: (k2, v2) :: kvs) =
        dumpStrLit k ++ ':' :: dumps v ++ ',' :: dumpsMembers ((k2, v2) :: kvs) := by
      simp [dumpsMembers]
    rw [h1, dumpsMembers_eq k2 v2 kvs]
    simp [dMembersRest]

theorem skipWs_cons_of {c : Char} {t : List Char} (h : isJsonWs c = false) :
    skipWs (c :: t) = c :: t := by
  simp [skipWs, List.dropWhile_cons, h]

theorem isDigit_not_ws {c : Char} (h : c.isDigit = true) : isJsonWs c = false := by
  by_contra hw
  have hw' : isJsonWs c = true := by simpa using hw
  simp only [isJsonWs, Bool.or_eq_true, beq_iff_eq] at hw'
  rcases hw' with ((rfl | rfl) | rfl) | rfl <;> exact absurd h (by decide)

theorem isDigit_not_rb {c : Char} (h : c.isDigit = true) : ¬ c = ']' := by
  intro hc
  subst hc
  exact absurd h (by decide)

theorem isDigit_numberStart {c : Char} (h : c.isDigit = true) : numberStart c = true := by
  simp [numberStart, h]

theorem intReprL_cons (n : Int) : ∃ c t, intReprL n = c :: t ∧
    numberStart c = true ∧ isJsonWs c = false ∧ ¬ c = ']' := by
  by_cases hn : n < 0
  · exact ⟨'-', natDigits n.natAbs, by simp [intReprL, hn], by decide, by decide, by decide⟩
  · obtain ⟨c, t, hct⟩ : ∃ c t, natDigits n.natAbs = c :: t := by
      cases h : natDigits n.natAbs with
      | nil => exact absurd h (natDigits_ne_nil _)
      | cons x y => exact ⟨x, y, rfl⟩
    have hc : c.isDigit = true := natDigits_all_digit _ c (by rw [hct]; simp)
    exact ⟨c, t, by simp [intReprL, hn, hct], isDigit_numberStart hc, isDigit_not_ws hc,
      isDigit_not_rb hc⟩

theorem floatBodyL_cons (a s : Nat) : ∃ c t, floatBodyL a s = c :: t ∧ c.isDigit = true := by
  cases hfb : floatBodyL a s with
  | nil =>
    exfalso
    cases s with
    | zero =>
      rw [floatBodyL_zero] at hfb
      exact natDigits_ne_nil a (by simpa using (List.append_eq_nil.mp hfb).1)
    | succ s' =>
      rw [floatBodyL_succ] at hfb
      have := (List.append_eq_nil.mp hfb).2
      simp at this
  | cons c t =>
    refine ⟨c, t, rfl, ?_⟩
    exact floatBodyL_head_digit a s c t [] (by rw [List.append_nil, hfb])

theorem floatReprL_cons (m : Int) (s : Nat) : ∃ c t, floatReprL m s = c :: t ∧
    numberStart c = true ∧ isJsonWs c = false ∧ ¬ c = ']' := by
  by_cases hm : m < 0
  · exact ⟨'-', floatBodyL m.natAbs s, by simp [floatReprL, hm], by decide, by decide, by decide⟩
  · obtain ⟨c, t, hct, hc⟩ := floatBodyL_cons m.natAbs s
    exact ⟨c, t, by simp [floatReprL, hm, hct], isDigit_numberStart hc, isDigit_not_ws hc,
      isDigit_not_rb hc⟩

theorem dumps_cons : ∀ v : Json, ∃ c t, dumps v = c :: t ∧ isJsonWs c = false ∧ ¬ c = ']'
  | .jnull => ⟨'n', _, rfl, by decide, by decide⟩
  | .jbool true => ⟨'t', _, rfl, by decide, by decide⟩
  | .jbool false => ⟨'f', _, rfl, by decide, by decide⟩
  | .jint n => by
    obtain ⟨c, t, hct, _, hws, hrb⟩ := intReprL_cons n
    exact ⟨c, t, by simp [dumps, hct], hws, hrb⟩
  | .jfloat m s => by
    obtain ⟨c, t, hct, _, hws, hrb⟩ := floatReprL_cons m s
    exact ⟨c, t, by simp [dumps, hct], hws, hrb⟩
  | .jstr s => ⟨'"', _, rfl, by decide, by decide⟩
  | .jarr xs => ⟨'[', _, rfl, by decide, by decide⟩
  | .jobj kvs => ⟨Char.ofNat 123, _, rfl, by decide, by decide⟩

theorem dElemsRest_boundary (vs : List Json) (rest : List Char) :
    boundary (dElemsRest vs ++ ']' :: rest) = true := by
  cases vs with
  | nil => simp [dElemsRest, boundary]
  | cons v vs => simp [dElemsRest, boundary]

theorem dMembersRest_boundary (kvs : List (String × Json)) (rest : List Char) :
    boundary (dMembersRest kvs ++ Char.ofNat 125 :: rest) = true := by
  cases kvs with
  | nil => simp [dMembersRest, boundary]
  | cons kv kvs =>
    obtain ⟨k, v⟩ := kv
    simp [dMembersRest, boundary]

theorem jfuel_pos : ∀ v : Json, 1 ≤ jfuel v := by
  intro v
  cases v with
  | jarr xs => cases xs <;> simp [jfuel]
  | jobj kvs =>
    cases kvs with
    | nil => simp [jfuel]
    | cons kv kvs =>
      obtain ⟨k, v⟩ := kv
      simp [jfuel]
  | _ => simp [jfuel]

theorem objInsert_append {kvs : List (String × Json)} {k : String} {v : Json}
    (h : ∀ kv ∈ kvs, ¬ kv.1 = k) : objInsert kvs k v = kvs ++ [(k, v)] := by
  induction kvs with
  | nil => rfl
  | cons kv rest ih =>
    obtain ⟨k0, v0⟩ := kv
    simp only [objInsert]
    rw [if_neg (h (k0, v0) (by simp))]
    rw [ih (fun kv hkv => h kv (by simp [hkv]))]
    rfl

theorem nodupKeys_no_earlier : ∀ (pre : List (String × Json)) (k : String) (v : Json)
    (post : List (String × Json)), nodupKeys (pre ++ (k, v) :: post) = true →
    ∀ kv ∈ pre, ¬ kv.1 = k := by
  intro pre
  induction pre with
  | nil =>
    intro k v post hnd kv hkv
    simp at hkv
  | cons kv0 pre' ih =>
    intro k v post hnd kv hkv
    obtain ⟨k0, v0⟩ := kv0
    simp only [List.cons_append, nodupKeys, Bool.and_eq_true, Bool.not_eq_true'] at hnd
    rcases List.mem_cons.mp hkv with rfl | hmem
    · intro hk
      have hk' : k0 = k := hk
      subst hk'
      have hany : (pre' ++ (k0, v) :: post).any (fun kv2 => kv2.1 == k0) = true := by
        apply List.any_eq_true.mpr
        exact ⟨(k0, v), by simp, by simp⟩
      simp only [List.append_eq] at hnd
      rw [hany] at hnd
      exact absurd hnd.1 (by simp)
    · exact ih k v post hnd.2 kv hmem

theorem jfuelL_pos : ∀ vs : List Json, 1 ≤ jfuelL vs := by
  intro vs
  cases vs <;> simp [jfuelL]

theorem jfuelO_pos : ∀ kvs : List (String × Json), 1 ≤ jfuelO kvs := by
  intro kvs
  cases kvs with
  | nil => simp [jfuelO]
  | cons kv kvs =>
    obtain ⟨k, v⟩ := kv
    simp [jfuelO]

mutual

theorem parseValue_dumps : ∀ (f : Nat) (v : Json) (rest : List Char),
    jfuel v ≤ f → jwf v = true → boundary rest = true →
    parseValue f (dumps v ++ rest) = some (v, rest)
  | 0, v, rest => by
    intro hf _ _
    have := jfuel_pos v
    omega
  | f + 1, v, rest => by
    intro hf hwf hb
    cases v with
    | jnull =>
      have hd : dumps Json.jnull ++ rest = 'n' :: 'u' :: 'l' :: 'l' :: rest := rfl
      rw [hd, parseValue, skipWs_cons_of (by decide)]
      dsimp only
      rw [if_neg (by decide), if_pos rfl]
      simp [expectChars]
    | jbool b =>
      cases b with
      | true =>
        have hd : dumps (Json.jbool true) ++ rest = 't' :: 'r' :: 'u' :: 'e' :: rest := rfl
        rw [hd, parseValue, skipWs_cons_of (by decide)]
        dsimp only
        rw [if_neg (by decide), if_neg (by decide), if_pos rfl]
        simp [expectChars]
      | false =>
        have hd : dumps (Json.jbool false) ++ rest = 'f' :: 'a' :: 'l' :: 's' :: 'e' :: rest := rfl
        rw [hd, parseValue, skipWs_cons_of (by decide)]
        dsimp only
        rw [if_neg (by decide), if_neg (by decide), if_neg (by decide), if_pos rfl]
        simp [expectChars]
    | jint n =>
      obtain ⟨c, t, hct, hns, hws, _⟩ := intReprL_cons n
      have hd : dumps (Json.jint n) ++ rest = c :: (t ++ rest) := by
        show intReprL n ++ rest = c :: (t ++ rest)
        rw [hct]
        rfl
      rw [hd, parseValue, skipWs_cons_of hws]
      dsimp only
      rw [if_pos hns]
      rw [show c :: (t ++ rest) = intReprL n ++ rest from by rw [hct]; rfl]
      exact parseNumber_intRepr n rest hb
    | jfloat m s =>
      obtain ⟨c, t, hct, hns, hws, _⟩ := floatReprL_cons m s
      have hcan : s = 0 ∨ ¬ (m % 10 = 0) := by
        have : jwf (Json.jfloat m s) = decide (s = 0 ∨ ¬ (m % 10 = 0)) := rfl
        rw [this] at hwf
        exact of_decide_eq_true hwf
      have hd : dumps (Json.jfloat m s) ++ rest = c :: (t ++ rest) := by
        show floatReprL m s ++ rest = c :: (t ++ rest)
        rw [hct]
        rfl
      rw [hd, parseValue, skipWs_cons_of hws]
      dsimp only
      rw [if_pos hns]
      rw [show c :: (t ++ rest) = floatReprL m s ++ rest from by rw [hct]; rfl]
      exact parseNumber_floatRepr m s hcan rest hb
    | jstr s =>
      have hd : dumps (Json.jstr s) ++ rest = '"' :: (escStr s.data ++ '"' :: rest) := by
        show dumpStrLit s ++ rest = _
        simp [dumpStrLit]
      rw [hd, parseValue, skipWs_cons_of (by decide)]
      dsimp only
      rw [if_neg (by decide), if_neg (by decide), if_neg (by decide), if_neg (by decide),
        if_pos rfl]
      rw [parseStringBody_esc]
      rfl
    | jarr elems =>
      cases elems with
      | nil =>
        have hd : dumps (Json.jarr []) ++ rest = '[' :: ']' :: rest := rfl
        rw [hd, parseValue, skipWs_cons_of (by decide)]
        dsimp only
        rw [if_neg (by decide), if_neg (by decide), if_neg (by decide), if_neg (by decide),
          if_neg (by decide), if_pos rfl]
        rw [skipWs_cons_of (by decide)]
        dsimp only
        rw [if_pos rfl]
      | cons x xs =>
        have hfx : jfuel x ≤ f ∧ jfuelL xs ≤ f := by
          have h1 : jfuel (Json.jarr (x :: xs)) = 1 + max (jfuel x) (jfuelL xs) := rfl
          rw [h1] at hf
          omega
        have hwx : jwf x = true ∧ jwfL xs = true := by
          have h1 : jwf (Json.jarr (x :: xs)) = (jwf x && jwfL xs) := rfl
          rw [h1] at hwf
          exact ⟨(Bool.and_eq_true _ _ |>.mp hwf).1, (Bool.and_eq_true _ _ |>.mp hwf).2⟩
        obtain ⟨c0, t0, hct, hws0, hrb0⟩ := dumps_cons x
        have hd : dumps (Json.jarr (x :: xs)) ++ rest =
            '[' :: (dumps x ++ (dElemsRest xs ++ ']' :: rest)) := by
          show ('[' :: dumpsElems (x :: xs) ++ [']']) ++ rest = _
          rw [dumpsElems_eq]
          simp
        rw [hd, parseValue, skipWs_cons_of (by decide)]
        dsimp only
        rw [if_neg (by decide), if_neg (by decide), if_neg (by decide), if_neg (by decide),
          if_neg (by decide), if_pos rfl]
        rw [show dumps x ++ (dElemsRest xs ++ ']' :: rest) =
          c0 :: (t0 ++ (dElemsRest xs ++ ']' :: rest)) from by rw [hct]; rfl]
        rw [skipWs_cons_of hws0]
        dsimp only
        rw [if_neg hrb0]
        rw [show c0 :: (t0 ++ (dElemsRest xs ++ ']' :: rest)) =
          dumps x ++ (dElemsRest xs ++ ']' :: rest) from by rw [hct]; rfl]
        rw [parseValue_dumps f x (dElemsRest xs ++ ']' :: rest) hfx.1 hwx.1
          (dElemsRest_boundary xs rest)]
        dsimp only
        rw [parseArrayRest_dumps f xs [x] rest hfx.2 hwx.2 hb]
        simp
    | jobj entries =>
      cases entries with
      | nil =>
        have hd : dumps (Json.jobj []) ++ rest = Char.ofNat 123 :: Char.ofNat 125 :: rest := rfl
        rw [hd, parseValue, skipWs_cons_of (by decide)]
        dsimp only
        rw [if_neg (by decide), if_neg (by decide), if_neg (by decide), if_neg (by decide),
          if_neg (by decide), if_neg (by decide), if_pos rfl]
        rw [skipWs_cons_of (by decide)]
        dsimp only
        rw [if_pos rfl]
      | cons kv kvs =>
        obtain ⟨k, v⟩ := kv
        have hfx : jfuel v ≤ f ∧ jfuelO kvs ≤ f := by
          have h1 : jfuel (Json.jobj ((k, v) :: kvs)) = 1 + max (jfuel v) (jfuelO kvs) := rfl
          rw [h1] at hf
          omega
        have hnd : nodupKeys ((k, v) :: kvs) = true ∧ jwfO ((k, v) :: kvs) = true := by
          have h1 : jwf (Json.jobj ((k, v) :: kvs)) =
              (nodupKeys ((k, v) :: kvs) && jwfO ((k, v) :: kvs)) := rfl
          rw [h1] at hwf
          exact ⟨(Bool.and_eq_true _ _ |>.mp hwf).1, (Bool.and_eq_true _ _ |>.mp hwf).2⟩
        have hwx : jwf v = true ∧ jwfO kvs = true := by
          have h1 : jwfO ((k, v) :: kvs) = (jwf v && jwfO kvs) := rfl
          rw [h1] at hnd
          exact ⟨(Bool.and_eq_true _ _ |>.mp hnd.2).1, (Bool.and_eq_true _ _ |>.mp hnd.2).2⟩
        have hd : dumps (Json.jobj ((k, v) :: kvs)) ++ rest =
            Char.ofNat 123 :: ('"' :: (escStr k.data ++
              '"' :: (':' :: (dumps v ++ (dMembersRest kvs ++ Char.ofNat 125 :: rest))))) := by
          show (Char.ofNat 123 :: dumpsMembers ((k, v) :: kvs) ++ [Char.ofNat 125]) ++ rest = _
          rw [dumpsMembers_eq]
          simp [dumpStrLit]
        rw [hd, parseValue, skipWs_cons_of (by decide)]
        dsimp only
        rw [if_neg (by decide), if_neg (by decide), if_neg (by decide), if_neg (by decide),
          if_neg (by decide), if_neg (by decide), if_pos rfl]
        rw [skipWs_cons_of (by decide)]
        dsimp only
        rw [if_neg (by decide), if_pos rfl]
        rw [parseStringBody_esc]
        dsimp only
        rw [skipWs_cons_of (by decide)]
        dsimp only
        rw [if_pos rfl]
        rw [parseValue_dumps f v (dMembersRest kvs ++ Char.ofNat 125 :: rest) hfx.1 hwx.1
          (dMembersRest_boundary kvs rest)]
        dsimp only
        rw [show String.mk k.data = k from rfl]
        rw [parseObjRest_dumps f kvs [(k, v)] rest hfx.2 hwx.2 hnd.1 hb]
        simp

theorem parseArrayRest_dumps : ∀ (f : Nat) (vs acc : List Json) (rest : List Char),
    jfuelL vs ≤ f → jwfL vs = true → boundary rest = true →
    parseArrayRest f (dElemsRest vs ++ ']' :: rest) acc = some (.jarr (acc ++ vs), rest)
  | 0, vs, acc, rest => by
    intro hf _ _
    have := jfuelL_pos vs
    omega
  | f + 1, vs, acc, rest => by
    intro hf hwf hb
    cases vs with
    | nil =>
      show parseArrayRest (f + 1) ((dElemsRest []) ++ ']' :: rest) acc = _
      rw [show dElemsRest [] ++ ']' :: rest = ']' :: rest from rfl]
      rw [parseArrayRest, skipWs_cons_of (by decide)]
      dsimp only
      rw [if_neg (by decide), if_pos rfl]
      simp
    | cons v vs' =>
      have hfx : jfuel v ≤ f ∧ jfuelL vs' ≤ f := by
        have h1 : jfuelL (v :: vs') = 1 + max (jfuel v) (jfuelL vs') := rfl
        rw [h1] at hf
        omega
      have hwx : jwf v = true ∧ jwfL vs' = true := by
        have h1 : jwfL (v :: vs') = (jwf v && jwfL vs') := rfl
        rw [h1] at hwf
        exact ⟨(Bool.and_eq_true _ _ |>.mp hwf).1, (Bool.and_eq_true _ _ |>.mp hwf).2⟩
      have hd : dElemsRest (v :: vs') ++ ']' :: rest =
          ',' :: (dumps v ++ (dElemsRest vs' ++ ']' :: rest)) := by
        simp [dElemsRest]
      rw [hd, parseArrayRest, skipWs_cons_of (by decide)]
      dsimp only
      rw [if_pos rfl]
      rw [parseValue_dumps f v (dElemsRest vs' ++ ']' :: rest) hfx.1 hwx.1
        (dElemsRest_boundary vs' rest)]
      dsimp only
      rw [parseArrayRest_dumps f vs' (acc ++ [v]) rest hfx.2 hwx.2 hb]
      simp

theorem parseObjRest_dumps : ∀ (f : Nat) (kvs acc : List (String × Json)) (rest : List Char),
    jfuelO kvs ≤ f → jwfO kvs = true → nodupKeys (acc ++ kvs) = true → boundary rest = true →
    parseObjRest f (dMembersRest kvs ++ Char.ofNat 125 :: rest) acc =
      some (.jobj (acc ++ kvs), rest)
  | 0, kvs, acc, rest => by
    intro hf _ _ _
    have := jfuelO_pos kvs
    omega
  | f + 1, kvs, acc, rest => by
    intro hf hwf hnd hb
    cases kvs with
    | nil =>
      show parseObjRest (f + 1) ((dMembersRest []) ++ Char.ofNat 125 :: rest) acc = _
      rw [show dMembersRest [] ++ Char.ofNat 125 :: rest = Char.ofNat 125 :: rest from rfl]
      rw [parseObjRest, skipWs_cons_of (by decide)]
      dsimp only
      rw [if_neg (by decide), if_pos rfl]
      simp
    | cons kv kvs' =>
      obtain ⟨k, v⟩ := kv
      have hfx : jfuel v ≤ f ∧ jfuelO kvs' ≤ f := by
        have h1 : jfuelO ((k, v) :: kvs') = 1 + max (jfuel v) (jfuelO kvs') := rfl
        rw [h1] at hf
        omega
      have hwx : jwf v = true ∧ jwfO kvs' = true := by
        have h1 : jwfO ((k, v) :: kvs') = (jwf v && jwfO kvs') := rfl
        rw [h1] at hwf
        exact ⟨(Bool.and_eq_true _ _ |>.mp hwf).1, (Bool.and_eq_true _ _ |>.mp hwf).2⟩
      have hins : ∀ kv2 ∈ acc, ¬ kv2.1 = k := nodupKeys_no_earlier acc k v kvs' hnd
      have hd : dMembersRest ((k, v) :: kvs') ++ Char.ofNat 125 :: rest =
          ',' :: ('"' :: (escStr k.data ++
            '"' :: (':' :: (dumps v ++ (dMembersRest kvs' ++ Char.ofNat 125 :: rest))))) := by
        simp [dMembersRest, dumpStrLit]
      rw [hd, parseObjRest, skipWs_cons_of (by decide)]
      dsimp only
      rw [if_pos rfl]
      rw [skipWs_cons_of (by decide)]
      dsimp only
      rw [if_pos rfl]
      rw [parseStringBody_esc]
      dsimp only
      rw [skipWs_cons_of (by decide)]
      dsimp only
      rw [if_pos rfl]
      rw [parseValue_dumps f v (dMembersRest kvs' ++ Char.ofNat 125 :: rest) hfx.1 hwx.1
        (dMembersRest_boundary kvs' rest)]
      dsimp only
      rw [show String.mk k.data = k from rfl]
      rw [objInsert_append hins]
      rw [parseObjRest_dumps f kvs' (acc ++ [(k, v)]) rest hfx.2 hwx.2
        (by rw [List.append_assoc]; exact hnd) hb]
      simp

end

mutual

theorem jfuel_le_dumps : ∀ v : Json, jfuel v ≤ (dumps v).length + 1
  | .jnull => by simp [jfuel]
  | .jbool b => by cases b <;> simp [jfuel]
  | .jint n => by simp [jfuel]
  | .jfloat m s => by simp [jfuel]
  | .jstr s => by simp [jfuel]
  | .jarr [] => by simp [jfuel]
  | .jarr (x :: xs) => by
    have h1 := jfuel_le_dumps x
    have h2 := jfuelL_le_dElems xs
    have hlen : (dumps (Json.jarr (x :: xs))).length =
        (dumps x).length + (dElemsRest xs).length + 2 := by
      show ('[' :: dumpsElems (x :: xs) ++ [']']).length = _
      rw [dumpsElems_eq]
      simp
      try omega
    rw [show jfuel (Json.jarr (x :: xs)) = 1 + max (jfuel x) (jfuelL xs) from rfl, hlen]
    omega
  | .jobj [] => by simp [jfuel]
  | .jobj ((k, v) :: kvs) => by
    have h1 := jfuel_le_dumps v
    have h2 := jfuelO_le_dMembers kvs
    have hlen : (dumps (Json.jobj ((k, v) :: kvs))).length =
        (dumpStrLit k).length + (dumps v).length + (dMembersRest kvs).length + 3 := by
      show (Char.ofNat 123 :: dumpsMembers ((k, v) :: kvs) ++ [Char.ofNat 125]).length = _
      rw [dumpsMembers_eq]
      simp
      try omega
    rw [show jfuel (Json.jobj ((k, v) :: kvs)) = 1 + max (jfuel v) (jfuelO kvs) from rfl, hlen]
    omega

theorem jfuelL_le_dElems : ∀ vs : List Json, jfuelL vs ≤ (dElemsRest vs).length + 1
  | [] => by simp [jfuelL, dElemsRest]
  | v :: vs => by
    have h1 := jfuel_le_dumps v
    have h2 := jfuelL_le_dElems vs
    have hlen : (dElemsRest (v :: vs)).length =
        (dumps v).length + (dElemsRest vs).length + 1 := by
      simp [dElemsRest]
      try omega
    rw [show jfuelL (v :: vs) = 1 + max (jfuel v) (jfuelL vs) from rfl, hlen]
    omega

theorem jfuelO_le_dMembers : ∀ kvs : List (String × Json),
    jfuelO kvs ≤ (dMembersRest kvs).length + 1
  | [] => by simp [jfuelO, dMembersRest]
  | (k, v) :: kvs => by
    have h1 := jfuel_le_dumps v
    have h2 := jfuelO_le_dMembers kvs
    have hlen : (dMembersRest ((k, v) :: kvs)).length =
        (dumpStrLit k).length + (dumps v).length + (dMembersRest kvs).length + 2 := by
      simp [dMembersRest]
      try omega
    rw [show jfuelO ((k, v) :: kvs) = 1 + max (jfuel v) (jfuelO kvs) from rfl, hlen]
    omega

end

/-- The serializer/parser roundtrip: `json.loads(json.dumps(v)) = v` for every
well-formed value. -/
theorem parse_dumps (v : Json) (hwf : jwf v = true) : parseJson (dumpsStr v) = some v := by
  have h := parseValue_dumps ((dumps v).length + 1) v []
    (le_trans (jfuel_le_dumps v) (by omega)) hwf rfl
  rw [List.append_nil] at h
  unfold parseJson dumpsStr
  rw [show (String.mk (dumps v)).data = dumps v from rfl, h]
  simp [skipWs]

/-! ## The endpoint

`frappe.request.get_json()` is modelled by an `Except` (an exception or the
parsed body, `jnull` for a body without JSON), `frappe.form_dict` by an entry
list (frappe's form dict is a `dict` subclass, so the `isinstance` check in
the source is always true).  The record store is a list of documents; the
framework's transactionality is modelled by returning the pre-call store
whenever the caught exception path runs.  A `Faults` structure says which
store operation raises, `Except.error` models an exception escaping to the
caller. -/

structure Request where
  getJson : Except Unit Json
  formDict : List (String × Json)

/-- The `frappe.form_dict` fallback inside `_load_payload`. -/
def loadFormFallback (fd : List (String × Json)) : Json :=
  if fd.isEmpty then .jobj []
  else
    match fd with
    | [(_, .jstr s)] =>
      match parseJson s with
      | some j => j
      | none => .jobj []
    | _ =>
      match parseJson (String.mk (dumps (.jobj fd))) with
      | some j => j
      | none => .jobj []

/-- `_load_payload` from the source: try the JSON body, else the form dict
(a sole string value is itself parsed as JSON; otherwise the form dict is
round-tripped through `json.dumps`/`json.loads`). -/
def load_payload (req : Request) : Json :=
  match req.getJson with
  | .ok d => if pyTruthy d then d else loadFormFallback req.formDict
  | .error _ => loadFormFallback req.formDict

/-- An apostrophe (the custom-field labels in the source contain one). -/
def apos : String := String.mk [Char.ofNat 39]

def studentNameLabel : String := "Student" ++ apos ++ "s Name"

def studentIdLabel : String := "Student" ++ apos ++ "s ID"

def testerNameLabel : String := "Tester" ++ apos ++ "s Name"

/-- A stored `Placement Test Result` document.  `name` is the frappe docname;
`result_id`, `quiz_title` and `raw_payload` are always set by the endpoint
(their derived values are never `None`), the remaining fields are optional. -/
structure ResultRecord where
  name : Nat
  result_id : Int
  quiz_title : String
  raw_payload : String
  quiz_id : Option Int := none
  score_percentage : Option PyF := none
  final_score : Option PyF := none
  score_by : Option PyF := none
  score_type : Option Json := none
  points : Option PyF := none
  duration_seconds : Option Int := none
  start_time : Option String := none
  end_time : Option String := none
  submitted_at : Option String := none
  student_name : Option String := none
  student_id : Option String := none
  tester_name : Option String := none
  user_email : Option Json := none
  user_phone : Option Json := none
  user_ip : Option Json := none
  integration_source : Option Json := none
deriving DecidableEq, Repr

/-- The `doc_values` dict of the source (`None` values as `none`). -/
structure DocValues where
  result_id : Int
  quiz_title : String
  raw_payload : String
  quiz_id : Option Int
  score_percentage : Option PyF
  final_score : Option PyF
  score_by : Option PyF
  score_type : Option Json
  points : Option PyF
  duration_seconds : Option Int
  start_time : Option String
  end_time : Option String
  submitted_at : Option String
  student_name : Option String
  student_id : Option String
  tester_name : Option String
  user_email : Option Json
  user_phone : Option Json
  user_ip : Option Json
  integration_source : Option Json
deriving DecidableEq, Repr

/-- A payload value as an optional field value: Python `None` is absent. -/
def jsonOpt (v : Json) : Option Json := if v = .jnull then none else some v

/-- The `doc_values` construction of `submit_quiz_result` (lines 115-135).
`(payload.get("user") or {}).get(...)` raises `AttributeError` on a truthy
non-dict `user`, modelled by `Except.error`. -/
def deriveFields (gdt : Json → Option DT) (kvs : List (String × Json)) (rid : Int)
    (qt : Json) : Except Unit DocValues :=
  match orEmptyObj (objGetD kvs "user") with
  | .jobj ukvs => .ok {
      result_id := rid
      quiz_id := to_int (objGetD kvs "quiz_id")
      quiz_title := pyStr qt
      score_percentage := to_float (objGetD kvs "score_percentage")
      final_score := to_float (objGetD kvs "final_score")
      score_by := to_float (objGetD kvs "score_by")
      score_type := jsonOpt (objGetD kvs "score_type")
      points := to_float (objGetD kvs "points")
      duration_seconds := to_int (objGetD kvs "duration_seconds")
      start_time := to_datetime gdt (objGetD kvs "start_date")
      end_time := to_datetime gdt (objGetD kvs "end_date")
      submitted_at := to_datetime gdt (objGetD kvs "submitted_at")
      student_name := extract_custom_value kvs "quiz_attr_2" studentNameLabel
      student_id := extract_custom_value kvs "quiz_attr_1" studentIdLabel
      tester_name := extract_custom_value kvs "quiz_attr_6" testerNameLabel
      user_email := jsonOpt (objGetD ukvs "email")
      user_phone := jsonOpt (objGetD ukvs "phone")
      user_ip := jsonOpt (objGetD kvs "user_ip")
      integration_source := jsonOpt (objGetD kvs "integration")
      raw_payload := dumpsStr (.jobj kvs) }
  | _ => .error ()

/-- One field of the filtered `doc.update`: a non-`None` derived value
overwrites, a `None` derived value keeps the stored value. -/
def oupd {α : Type} (old new : Option α) : Option α :=
  match new with
  | some v => some v
  | none => old

/-- `doc.update({k: v for k, v in doc_values.items() if v is not None})` on an
existing document: non-`None` derived values overwrite, `None` values leave
the stored field untouched (`result_id`, `quiz_title`, `raw_payload` are
always non-`None` and always overwrite). -/
def mergeRecord (r : ResultRecord) (d : DocValues) : ResultRecord :=
  { name := r.name
    result_id := d.result_id
    quiz_title := d.quiz_title
    raw_payload := d.raw_payload
    quiz_id := oupd r.quiz_id d.quiz_id
    score_percentage := oupd r.score_percentage d.score_percentage
    final_score := oupd r.final_score d.final_score
    score_by := oupd r.score_by d.score_by
    score_type := oupd r.score_type d.score_type
    points := oupd r.points d.points
    duration_seconds := oupd r.duration_seconds d.duration_seconds
    start_time := oupd r.start_time d.start_time
    end_time := oupd r.end_time d.end_time
    submitted_at := oupd r.submitted_at d.submitted_at
    student_name := oupd r.student_name d.student_name
    student_id := oupd r.student_id d.student_id
    tester_name := oupd r.tester_name d.tester_name
    user_email := oupd r.user_email d.user_email
    user_phone := oupd r.user_phone d.user_phone
    user_ip := oupd r.user_ip d.user_ip
    integration_source := oupd r.integration_source d.integration_source }

/-- `frappe.new_doc` + the filtered `doc.update`: a fresh document whose
optional fields hold exactly the non-`None` derived values. -/
def newRecord (nm : Nat) (d : DocValues) : ResultRecord :=
  { name := nm
    result_id := d.result_id
    quiz_title := d.quiz_title
    raw_payload := d.raw_payload
    quiz_id := d.quiz_id
    score_percentage := d.score_percentage
    final_score := d.final_score
    score_by := d.score_by
    score_type := d.score_type
    points := d.points
    duration_seconds := d.duration_seconds
    start_time := d.start_time
    end_time := d.end_time
    submitted_at := d.submitted_at
    student_name := d.student_name
    student_id := d.student_id
    tester_name := d.tester_name
    user_email := d.user_email
    user_phone := d.user_phone
    user_ip := d.user_ip
    integration_source := d.integration_source }

/-- Which store operation raises, for fault injection: `lookup` is the
`frappe.get_all` call (outside the `try` block in the source), the other four
are inside it. -/
structure Faults where
  lookup : Bool := false
  getDoc : Bool := false
  save : Bool := false
  insert : Bool := false
  commit : Bool := false
deriving DecidableEq, Repr

/-- The endpoint's JSON response: `{"status": "error", "message": ...}` or
`{"status": "success", "docname": ..., "result_id": ...}`. -/
inductive Resp where
  | err (message : String)
  | ok (docname : Nat) (result_id : Int)
deriving DecidableEq, Repr

def missingPayloadMsg : String := "Missing payload."

def requiredMsg : String := "Both result_id and quiz_title are required."

def unexpectedMsg : String := "An unexpected error occurred."

/-- `submit_quiz_result` from the source, over an explicit request, store and
fault assignment.  `Except.error ()` is an exception escaping to the caller
(`payload.get` on a truthy non-dict payload, `(payload.get("user") or
{}).get` on a truthy non-dict user, or a raising `frappe.get_all`); the
caught branch inside the `try` returns the rolled-back (original) store. -/
def submit_quiz_result (gdt : Json → Option DT) (req : Request)
    (store : List ResultRecord) (f : Faults) : Except Unit (Resp × List ResultRecord) :=
  let payload := load_payload req
  if ¬ pyTruthy payload then .ok (.err missingPayloadMsg, store)
  else
    match payload with
    | .jobj kvs =>
      let rid? := to_int (objGetD kvs "result_id")
      let qt := objGetD kvs "quiz_title"
      match rid? with
      | none => .ok (.err requiredMsg, store)
      | some rid =>
        if rid = 0 ∨ ¬ pyTruthy qt then .ok (.err requiredMsg, store)
        else
          match deriveFields gdt kvs rid qt with
          | .error e => .error e
          | .ok dv =>
            if f.lookup then .error ()
            else
              match store.find? (fun r => r.result_id == rid) with
              | some r0 =>
                if f.getDoc ∨ f.save ∨ f.commit then .ok (.err unexpectedMsg, store)
                else
                  .ok (.ok r0.name rid,
                    store.map (fun r => if r.name = r0.name then mergeRecord r dv else r))
              | none =>
                if f.insert ∨ f.commit then .ok (.err unexpectedMsg, store)
                else
                  .ok (.ok store.length rid, store ++ [newRecord store.length dv])
    | _ => .error ()

def noFaults : Faults := {}

instance {ε α : Type} [DecidableEq ε] [DecidableEq α] : DecidableEq (Except ε α) := fun x y =>
  match x, y with
  | .ok a, .ok b =>
    if h : a = b then .isTrue (by rw [h])
    else .isFalse (by intro hc; injection hc; contradiction)
  | .error a, .error b =>
    if h : a = b then .isTrue (by rw [h])
    else .isFalse (by intro hc; injection hc; contradiction)
  | .ok _, .error _ => .isFalse (fun hc => Except.noConfusion hc)
  | .error _, .ok _ => .isFalse (fun hc => Except.noConfusion hc)

/-- A date-parsing oracle that models `get_datetime` failing on everything. -/
def gdt0 : Json → Option DT := fun _ => none

example :
    submit_quiz_result gdt0
      ⟨.ok (.jobj [("result_id", .jint 1), ("quiz_title", .jstr "Quiz A"),
        ("score_percentage", .jstr "90")]), []⟩ [] noFaults =
    .ok (.ok 0 1,
      [{ name := 0, result_id := 1, quiz_title := "Quiz A",
         raw_payload :=
           "\x7b\"result_id\":1,\"quiz_title\":\"Quiz A\",\"score_percentage\":\"90\"\x7d",
         score_percentage := some (.finite 90 0) }]) := by
  decide

/-! ## The four lookup strategies as the (corrected) spec describes them -/

/-- Strategy (1) of the spec: `fields[slug].value` — the truthy dict entry at
the slug, when its value is non-empty. -/
def refStrat1 (kvs : List (String × Json)) (slug : String) : Option String :=
  match orEmptyObj (objGetD kvs "fields") with
  | .jobj fkvs =>
    match objFind fkvs slug with
    | some item =>
      if pyTruthy item then
        match item with
        | .jobj o =>
          if valNonEmpty (objGetD o "value") then some (pyStr (objGetD o "value")) else none
        | _ => none
      else none
    | none => none
  | _ => none

/-- Strategy (2) of the (amended) spec: the label scan, attempted only when
`fields[slug]` is absent or falsy; the first dict entry carrying the label
wins, and contributes only when its value is non-empty. -/
def refStrat2 (kvs : List (String × Json)) (slug label : String) : Option String :=
  match orEmptyObj (objGetD kvs "fields") with
  | .jobj fkvs =>
    if pyTruthy (objGetD fkvs slug) then none
    else
      match labelScan fkvs label with
      | some (.jobj o) =>
        if valNonEmpty (objGetD o "value") then some (pyStr (objGetD o "value")) else none
      | _ => none
  | _ => none

/-- Strategy (3) of the spec: the first dict entry of `custom_fields`
matching the slug or label with a non-empty value. -/
def refStrat3 (kvs : List (String × Json)) (slug label : String) : Option String :=
  match orEmptyList (objGetD kvs "custom_fields") with
  | .jarr entries =>
    (entries.find? (fun e => match e with
      | .jobj o => (objGetD o "slug" == Json.jstr slug || objGetD o "label" == Json.jstr label) &&
          valNonEmpty (objGetD o "value")
      | _ => false)).bind (fun e => match e with
        | .jobj o => some (pyStr (objGetD o "value"))
        | _ => none)
  | _ => none

/-- Strategy (4) of the spec: `custom_field_values[slug]`, when non-empty. -/
def refStrat4 (kvs : List (String × Json)) (slug : String) : Option String :=
  match orEmptyObj (objGetD kvs "custom_field_values") with
  | .jobj o =>
    if valNonEmpty (objGetD o slug) then some (pyStr (objGetD o slug)) else none
  | _ => none

/-- The (amended) spec's description of custom-value extraction: the four
strategies in order, the first hit wins, `none` otherwise. -/
def extractRef (kvs : List (String × Json)) (slug label : String) : Option String :=
  match refStrat1 kvs slug with
  | some s => some s
  | none =>
    match refStrat2 kvs slug label with
    | some s => some s
    | none =>
      match refStrat3 kvs slug label with
      | some s => some s
      | none => refStrat4 kvs slug

theorem objFind_truthy {kvs : List (String × Json)} {k : String}
    (h : pyTruthy (objGetD kvs k) = true) : objFind kvs k = some (objGetD kvs k) := by
  unfold objGetD at *
  cases hf : objFind kvs k with
  | none =>
    rw [hf] at h
    simp [Option.getD, pyTruthy] at h
  | some v =>
    simp [Option.getD]

theorem labelScan_jobj {fkvs : List (String × Json)} {label : String} {fv : Json}
    (h : labelScan fkvs label = some fv) : ∃ o, fv = Json.jobj o := by
  unfold labelScan at h
  obtain ⟨kv, hfind, hmap⟩ := Option.map_eq_some'.mp h
  have hp := List.find?_some hfind
  cases hkv : kv.2 with
  | jobj o =>
    exact ⟨o, by rw [← hmap, hkv]⟩
  | jnull => rw [hkv] at hp; simp at hp
  | jbool b => rw [hkv] at hp; simp at hp
  | jint n => rw [hkv] at hp; simp at hp
  | jfloat m s => rw [hkv] at hp; simp at hp
  | jstr s => rw [hkv] at hp; simp at hp
  | jarr l => rw [hkv] at hp; simp at hp

theorem scanEntries_eq_find (entries : List Json) (slug label : String) :
    scanEntries entries slug label =
      (entries.find? (fun e => match e with
        | .jobj o => (objGetD o "slug" == Json.jstr slug || objGetD o "label" == Json.jstr label) &&
            valNonEmpty (objGetD o "value")
        | _ => false)).bind (fun e => match e with
          | .jobj o => some (pyStr (objGetD o "value"))
          | _ => none) := by
  induction entries with
  | nil => rfl
  | cons e rest ih =>
    cases e with
    | jobj o =>
      by_cases hm : (objGetD o "slug" == Json.jstr slug ||
          objGetD o "label" == Json.jstr label) = true
      · by_cases hv : valNonEmpty (objGetD o "value") = true
        · simp [scanEntries, hm, hv, List.find?_cons]
        · simp [scanEntries, hm, hv, List.find?_cons, ih]
      · simp [scanEntries, hm, List.find?_cons, ih]
    | jnull => simp [scanEntries, List.find?_cons, ih]
    | jbool b => simp [scanEntries, List.find?_cons, ih]
    | jint n => simp [scanEntries, List.find?_cons, ih]
    | jfloat m s => simp [scanEntries, List.find?_cons, ih]
    | jstr s => simp [scanEntries, List.find?_cons, ih]
    | jarr l => simp [scanEntries, List.find?_cons, ih]

theorem extractBlock12_eq (kvs : List (String × Json)) (slug label : String) :
    extractBlock12 kvs slug label =
      (match refStrat1 kvs slug with
       | some s => some s
       | none => refStrat2 kvs slug label) := by
  unfold extractBlock12 refStrat1 refStrat2 fieldsItem
  cases hf : orEmptyObj (objGetD kvs "fields") with
  | jobj fkvs =>
    dsimp only
    by_cases hts : pyTruthy (objGetD fkvs slug) = true
    · rw [objFind_truthy hts, if_pos hts]
      dsimp only
      rw [if_pos hts]
      try dsimp only
      cases hit : objGetD fkvs slug with
      | jobj o =>
        rw [hit] at hts
        by_cases hv : valNonEmpty (objGetD o "value") = true
        · simp [hv]
        · simp [hv, hts]
      | jnull =>
        rw [hit] at hts
        exact absurd hts (by decide)
      | jbool b =>
        rw [hit] at hts
        simp [hts]
      | jint n =>
        rw [hit] at hts
        simp [hts]
      | jfloat m s =>
        rw [hit] at hts
        simp [hts]
      | jstr s =>
        rw [hit] at hts
        simp [hts]
      | jarr l =>
        rw [hit] at hts
        simp [hts]
    · have hr1 : (match objFind fkvs slug with
        | some item =>
          if pyTruthy item then
            match item with
            | Json.jobj o =>
              if valNonEmpty (objGetD o "value") then some (pyStr (objGetD o "value")) else none
            | _ => none
          else none
        | none => none) = (none : Option String) := by
        cases hof : objFind fkvs slug with
        | none => rfl
        | some v =>
          have hveq : objGetD fkvs slug = v := by
            unfold objGetD
            rw [hof]
            rfl
          rw [hveq] at hts
          simp [hts]
      rw [hr1]
      dsimp only
      rw [if_neg hts, if_neg hts]
      cases hls : labelScan fkvs label with
      | some fv =>
        obtain ⟨o, rfl⟩ := labelScan_jobj hls
        rfl
      | none =>
        cases hit : objGetD fkvs slug with
        | jobj l =>
          have hl : l = [] := by
            rw [hit] at hts
            simp [pyTruthy] at hts
            exact hts
          subst hl
          rfl
        | jnull => rfl
        | jbool b => rfl
        | jint n => rfl
        | jfloat m s => rfl
        | jstr s => rfl
        | jarr l => rfl
  | jnull => rfl
  | jbool b => rfl
  | jint n => rfl
  | jfloat m s => rfl
  | jstr s => rfl
  | jarr l => rfl

theorem extract34_eq (kvs : List (String × Json)) (slug label : String) :
    extract34 kvs slug label =
      (match refStrat3 kvs slug label with
       | some s => some s
       | none => refStrat4 kvs slug) := by
  unfold extract34 extractCustomFieldsList refStrat3 extractCFV refStrat4
  cases orEmptyList (objGetD kvs "custom_fields") with
  | jarr entries =>
    dsimp only
    rw [scanEntries_eq_find]
  | jnull => rfl
  | jbool b => rfl
  | jint n => rfl
  | jfloat m s => rfl
  | jstr s => rfl
  | jobj l => rfl

theorem extract_eq_ref (kvs : List (String × Json)) (slug label : String) :
    extract_custom_value kvs slug label = extractRef kvs slug label := by
  unfold extract_custom_value extractRef
  rw [extractBlock12_eq, extract34_eq]
  cases refStrat1 kvs slug with
  | some s => rfl
  | none =>
    cases refStrat2 kvs slug label with
    | some s => rfl
    | none => rfl

/-! ## The timestamp format `YYYY-MM-DD HH:MM:SS` -/

/-- The normalized timestamp shape `YYYY-MM-DD HH:MM:SS`: nineteen
characters, decimal digits around the fixed separators. -/
def normTs (s : String) : Bool :=
  match s.data with
  | [y1, y2, y3, y4, c1, o1, o2, c2, d1, d2, c3, h1, h2, c4, i1, i2, c5, e1, e2] =>
    y1.isDigit && y2.isDigit && y3.isDigit && y4.isDigit && c1 == '-' &&
    o1.isDigit && o2.isDigit && c2 == '-' && d1.isDigit && d2.isDigit && c3 == ' ' &&
    h1.isDigit && h2.isDigit && c4 == ':' && i1.isDigit && i2.isDigit && c5 == ':' &&
    e1.isDigit && e2.isDigit
  | _ => false

theorem list_two {α : Type} : ∀ (l : List α), l.length = 2 → ∃ a b, l = [a, b]
  | [a, b], _ => ⟨a, b, rfl⟩
  | [], h => nomatch h
  | [_], h => nomatch h
  | _ :: _ :: _ :: _, h => nomatch h

theorem list_four {α : Type} :
    ∀ (l : List α), l.length = 4 → ∃ a b c d, l = [a, b, c, d]
  | [a, b, c, d], _ => ⟨a, b, c, d, rfl⟩
  | [], h => nomatch h
  | [_], h => nomatch h
  | [_, _], h => nomatch h
  | [_, _, _], h => nomatch h
  | _ :: _ :: _ :: _ :: _ :: _, h => nomatch h

theorem natPadL_pair (n : Nat) (h : n < 100) :
    ∃ a b, natPadL n 2 = [a, b] ∧ a.isDigit = true ∧ b.isDigit = true := by
  have hlen : (natPadL n 2).length = 2 := by
    rw [natPadL_length]
    have hle := natDigits_length_le (show 1 ≤ 2 by decide) (show n < 10 ^ 2 by omega)
    omega
  obtain ⟨a, b, hab⟩ := list_two _ hlen
  refine ⟨a, b, hab, ?_, ?_⟩
  · exact natPadL_all_digit n 2 a (by rw [hab]; exact List.mem_cons_self a [b])
  · exact natPadL_all_digit n 2 b (by rw [hab]; simp)

theorem natPadL_quad (n : Nat) (h : n < 10000) :
    ∃ a b c d, natPadL n 4 = [a, b, c, d] ∧ a.isDigit = true ∧ b.isDigit = true ∧
      c.isDigit = true ∧ d.isDigit = true := by
  have hlen : (natPadL n 4).length = 4 := by
    rw [natPadL_length]
    have hle := natDigits_length_le (show 1 ≤ 4 by decide) (show n < 10 ^ 4 by omega)
    omega
  obtain ⟨a, b, c, d, habcd⟩ := list_four _ hlen
  refine ⟨a, b, c, d, habcd, ?_, ?_, ?_, ?_⟩ <;>
    exact natPadL_all_digit n 4 _ (by rw [habcd]; simp)

theorem normTs_strftime (d : DT) : normTs (strftimeYmdHMS d) = true := by
  obtain ⟨y1, y2, y3, y4, hy, hy1, hy2, hy3, hy4⟩ :=
    natPadL_quad d.year (by have := d.year_le; omega)
  obtain ⟨o1, o2, ho, ho1, ho2⟩ := natPadL_pair d.month (by have := d.month_le; omega)
  obtain ⟨d1, d2, hd, hd1, hd2⟩ := natPadL_pair d.day (by have := d.day_le; omega)
  obtain ⟨g1, g2, hg, hg1, hg2⟩ := natPadL_pair d.hour (by have := d.hour_le; omega)
  obtain ⟨i1, i2, hi, hi1, hi2⟩ := natPadL_pair d.minute (by have := d.minute_le; omega)
  obtain ⟨e1, e2, he, he1, he2⟩ := natPadL_pair d.second (by have := d.second_le; omega)
  have hs : (strftimeYmdHMS d).data =
      [y1, y2, y3, y4, '-', o1, o2, '-', d1, d2, ' ', g1, g2, ':', i1, i2, ':', e1, e2] := by
    simp [strftimeYmdHMS, padNum, hy, ho, hd, hg, hi, he]
  unfold normTs
  rw [hs]
  simp [hy1, hy2, hy3, hy4, ho1, ho2, hd1, hd2, hg1, hg2, hi1, hi2, he1, he2]

/-! ## Endpoint control-flow lemmas -/

theorem truthy_of_rid {kvs : List (String × Json)} {rid : Int}
    (h : to_int (objGetD kvs "result_id") = some rid) :
    pyTruthy (Json.jobj kvs) = true := by
  cases kvs with
  | nil => simp [objGetD, objFind, to_int] at h
  | cons a t => rfl

theorem deriveFields_rid {gdt : Json → Option DT} {kvs : List (String × Json)} {rid : Int}
    {qt : Json} {dv : DocValues} (h : deriveFields gdt kvs rid qt = Except.ok dv) :
    dv.result_id = rid ∧ dv.quiz_title = pyStr qt ∧
      dv.raw_payload = dumpsStr (Json.jobj kvs) := by
  unfold deriveFields at h
  cases hu : orEmptyObj (objGetD kvs "user") with
  | jobj ukvs =>
    rw [hu] at h
    dsimp only at h
    injection h with h
    subst h
    exact ⟨rfl, rfl, rfl⟩
  | jnull => rw [hu] at h; exact Except.noConfusion h
  | jbool b => rw [hu] at h; exact Except.noConfusion h
  | jint n => rw [hu] at h; exact Except.noConfusion h
  | jfloat m s => rw [hu] at h; exact Except.noConfusion h
  | jstr s => rw [hu] at h; exact Except.noConfusion h
  | jarr l => rw [hu] at h; exact Except.noConfusion h

theorem oupd_of_none {α : Type} {x y : Option α} (h : y = none) : oupd x y = x := by
  rw [h]
  rfl

theorem oupd_of_not_none {α : Type} {x y : Option α} (h : ¬ y = none) : oupd x y = y := by
  cases y with
  | none => exact absurd rfl h
  | some v => rfl

/-- `submit_quiz_result` once the payload has resolved to a (truthy) dict. -/
theorem submit_jobj (gdt : Json → Option DT) (req : Request) (store : List ResultRecord)
    (f : Faults) (kvs : List (String × Json))
    (hload : load_payload req = Json.jobj kvs) (ht : pyTruthy (Json.jobj kvs) = true) :
    submit_quiz_result gdt req store f =
      (match to_int (objGetD kvs "result_id") with
       | none => .ok (.err requiredMsg, store)
       | some rid =>
         if rid = 0 ∨ ¬ pyTruthy (objGetD kvs "quiz_title") then .ok (.err requiredMsg, store)
         else
           match deriveFields gdt kvs rid (objGetD kvs "quiz_title") with
           | .error e => .error e
           | .ok dv =>
             if f.lookup then .error ()
             else
               match store.find? (fun r => r.result_id == rid) with
               | some r0 =>
                 if f.getDoc ∨ f.save ∨ f.commit then .ok (.err unexpectedMsg, store)
                 else
                   .ok (.ok r0.name rid,
                     store.map (fun r => if r.name = r0.name then mergeRecord r dv else r))
               | none =>
                 if f.insert ∨ f.commit then .ok (.err unexpectedMsg, store)
                 else .ok (.ok store.length rid, store ++ [newRecord store.length dv])) := by
  unfold submit_quiz_result
  rw [hload]
  dsimp only
  rw [if_neg (not_not_intro ht)]

/-- `submit_quiz_result` once the required fields validated and the document
values derived: only the store interaction remains. -/
theorem submit_derived (gdt : Json → Option DT) (req : Request) (store : List ResultRecord)
    (f : Faults) (kvs : List (String × Json)) (rid : Int) (dv : DocValues)
    (hload : load_payload req = Json.jobj kvs)
    (hrid : to_int (objGetD kvs "result_id") = some rid) (hrid0 : ¬ rid = 0)
    (hqt : pyTruthy (objGetD kvs "quiz_title") = true)
    (hdf : deriveFields gdt kvs rid (objGetD kvs "quiz_title") = Except.ok dv) :
    submit_quiz_result gdt req store f =
      (if f.lookup then Except.error ()
       else
         match store.find? (fun r => r.result_id == rid) with
         | some r0 =>
           if f.getDoc ∨ f.save ∨ f.commit then .ok (.err unexpectedMsg, store)
           else
             .ok (.ok r0.name rid,
               store.map (fun r => if r.name = r0.name then mergeRecord r dv else r))
         | none =>
           if f.insert ∨ f.commit then .ok (.err unexpectedMsg, store)
           else .ok (.ok store.length rid, store ++ [newRecord store.length dv])) := by
  rw [submit_jobj gdt req store f kvs hload (truthy_of_rid hrid), hrid]
  dsimp only
  rw [if_neg (not_or.mpr ⟨hrid0, not_not_intro hqt⟩), hdf]

/-! ## Store invariants -/

def storeNames (store : List ResultRecord) : List Nat := store.map (fun r => r.name)

def storeRids (store : List ResultRecord) : List Int := store.map (fun r => r.result_id)

/-- Well-formed store: docnames are `0, 1, ...` in order (so they are
pairwise distinct, and fresh docnames never collide), and at most one record
exists per `result_id`. -/
def StoreOk (store : List ResultRecord) : Prop :=
  storeNames store = List.range store.length ∧ (storeRids store).Nodup

theorem storeOk_mem_inj {store : List ResultRecord} (h : StoreOk store)
    {r r0 : ResultRecord} (hr : r ∈ store) (hr0 : r0 ∈ store) (hn : r.name = r0.name) :
    r = r0 := by
  have hnod : (store.map (fun r => r.name)).Nodup := by
    have := h.1
    rw [storeNames] at this
    rw [this]
    exact List.nodup_range store.length
  exact List.inj_on_of_nodup_map hnod hr hr0 hn

theorem storeOk_update {store : List ResultRecord} (h : StoreOk store) {r0 : ResultRecord}
    {rid : Int} (hfind : store.find? (fun r => r.result_id == rid) = some r0)
    {dv : DocValues} (hdv : dv.result_id = rid) :
    StoreOk (store.map (fun r => if r.name = r0.name then mergeRecord r dv else r)) ∧
    ∀ r ∈ store,
      ∃ r2 ∈ store.map (fun r => if r.name = r0.name then mergeRecord r dv else r),
        r2.name = r.name ∧ r2.result_id = r.result_id := by
  have hr0mem : r0 ∈ store := List.mem_of_find?_eq_some hfind
  have hr0rid : r0.result_id = rid := by
    have := List.find?_some hfind
    simpa using this
  have hpt : ∀ r ∈ store,
      (if r.name = r0.name then mergeRecord r dv else r).name = r.name ∧
      (if r.name = r0.name then mergeRecord r dv else r).result_id = r.result_id := by
    intro r hr
    by_cases hn : r.name = r0.name
    · have hrr0 : r = r0 := storeOk_mem_inj h hr hr0mem hn
      subst hrr0
      rw [if_pos hn]
      refine ⟨rfl, ?_⟩
      show dv.result_id = r.result_id
      rw [hdv, hr0rid]
    · rw [if_neg hn]
      exact ⟨rfl, rfl⟩
  have hnames : storeNames (store.map (fun r => if r.name = r0.name then mergeRecord r dv else r))
      = storeNames store := by
    rw [storeNames, storeNames, List.map_map]
    exact List.map_congr_left (fun r hr => (hpt r hr).1)
  have hrids : storeRids (store.map (fun r => if r.name = r0.name then mergeRecord r dv else r))
      = storeRids store := by
    rw [storeRids, storeRids, List.map_map]
    exact List.map_congr_left (fun r hr => (hpt r hr).2)
  refine ⟨⟨?_, ?_⟩, ?_⟩
  · rw [hnames, List.length_map]
    exact h.1
  · rw [hrids]
    exact h.2
  · intro r hr
    exact ⟨if r.name = r0.name then mergeRecord r dv else r,
      List.mem_map_of_mem _ hr, (hpt r hr).1, (hpt r hr).2⟩

theorem storeOk_insert {store : List ResultRecord} (h : StoreOk store) {rid : Int}
    (hfind : store.find? (fun r => r.result_id == rid) = none)
    {dv : DocValues} (hdv : dv.result_id = rid) :
    StoreOk (store ++ [newRecord store.length dv]) ∧
    ∀ r ∈ store, ∃ r2 ∈ store ++ [newRecord store.length dv],
        r2.name = r.name ∧ r2.result_id = r.result_id := by
  have hnew : rid ∉ storeRids store := by
    intro hmem
    rw [storeRids] at hmem
    obtain ⟨r, hr, hrrid⟩ := List.mem_map.mp hmem
    have := List.find?_eq_none.mp hfind r hr
    simp [hrrid] at this
  refine ⟨⟨?_, ?_⟩, ?_⟩
  · rw [storeNames, List.map_append, List.length_append]
    show storeNames store ++ [store.length] = List.range (store.length + 1)
    rw [h.1, List.range_succ]
  · rw [storeRids, List.map_append]
    show (storeRids store ++ [(newRecord store.length dv).result_id]).Nodup
    have hr : (newRecord store.length dv).result_id = rid := hdv
    rw [hr, List.nodup_append]
    refine ⟨h.2, List.nodup_singleton rid, ?_⟩
    intro a ha hb
    rw [List.mem_singleton] at hb
    subst hb
    exact hnew ha
  · intro r hr
    exact ⟨r, List.mem_append_left _ hr, rfl, rfl⟩

/-- Inversion: a non-raising run of the endpoint leaves the store unchanged,
updates the record found for the coerced `result_id`, or appends one fresh
record for it. -/
theorem submit_inv (gdt : Json → Option DT) (req : Request) (store : List ResultRecord)
    (f : Faults) (resp : Resp) (store2 : List ResultRecord)
    (hres : submit_quiz_result gdt req store f = .ok (resp, store2)) :
    store2 = store ∨
    (∃ kvs rid dv r0, load_payload req = Json.jobj kvs ∧
      to_int (objGetD kvs "result_id") = some rid ∧
      deriveFields gdt kvs rid (objGetD kvs "quiz_title") = Except.ok dv ∧
      store.find? (fun r => r.result_id == rid) = some r0 ∧
      store2 = store.map (fun r => if r.name = r0.name then mergeRecord r dv else r)) ∨
    (∃ kvs rid dv, load_payload req = Json.jobj kvs ∧
      to_int (objGetD kvs "result_id") = some rid ∧
      deriveFields gdt kvs rid (objGetD kvs "quiz_title") = Except.ok dv ∧
      store.find? (fun r => r.result_id == rid) = none ∧
      store2 = store ++ [newRecord store.length dv]) := by
  unfold submit_quiz_result at hres
  dsimp only at hres
  by_cases hp : pyTruthy (load_payload req) = true
  · rw [if_neg (not_not_intro hp)] at hres
    cases hlp : load_payload req with
    | jobj kvs =>
      rw [hlp] at hres
      dsimp only at hres
      cases hti : to_int (objGetD kvs "result_id") with
      | none =>
        rw [hti] at hres
        dsimp only at hres
        injection hres with hres
        injection hres with h1 h2
        exact Or.inl h2.symm
      | some rid =>
        rw [hti] at hres
        dsimp only at hres
        by_cases hc : rid = 0 ∨ ¬ pyTruthy (objGetD kvs "quiz_title") = true
        · rw [if_pos hc] at hres
          injection hres with hres
          injection hres with h1 h2
          exact Or.inl h2.symm
        · rw [if_neg hc] at hres
          cases hdf : deriveFields gdt kvs rid (objGetD kvs "quiz_title") with
          | error e => rw [hdf] at hres; exact Except.noConfusion hres
          | ok dv =>
            rw [hdf] at hres
            dsimp only at hres
            by_cases hlk : f.lookup = true
            · rw [if_pos hlk] at hres
              exact Except.noConfusion hres
            · rw [if_neg hlk] at hres
              cases hfind : store.find? (fun r => r.result_id == rid) with
              | some r0 =>
                rw [hfind] at hres
                dsimp only at hres
                by_cases hflt : f.getDoc = true ∨ f.save = true ∨ f.commit = true
                · rw [if_pos hflt] at hres
                  injection hres with hres
                  injection hres with h1 h2
                  exact Or.inl h2.symm
                · rw [if_neg hflt] at hres
                  injection hres with hres
                  injection hres with h1 h2
                  exact Or.inr (Or.inl ⟨kvs, rid, dv, r0, rfl, hti, hdf, hfind, h2.symm⟩)
              | none =>
                rw [hfind] at hres
                dsimp only at hres
                by_cases hflt : f.insert = true ∨ f.commit = true
                · rw [if_pos hflt] at hres
                  injection hres with hres
                  injection hres with h1 h2
                  exact Or.inl h2.symm
                · rw [if_neg hflt] at hres
                  injection hres with hres
                  injection hres with h1 h2
                  exact Or.inr (Or.inr ⟨kvs, rid, dv, rfl, hti, hdf, hfind, h2.symm⟩)
    | jnull => rw [hlp] at hres; exact Except.noConfusion hres
    | jbool b => rw [hlp] at hres; exact Except.noConfusion hres
    | jint n => rw [hlp] at hres; exact Except.noConfusion hres
    | jfloat m s => rw [hlp] at hres; exact Except.noConfusion hres
    | jstr s => rw [hlp] at hres; exact Except.noConfusion hres
    | jarr l => rw [hlp] at hres; exact Except.noConfusion hres
  · rw [if_pos hp] at hres
    injection hres with hres
    injection hres with h1 h2
    exact Or.inl h2.symm

/-! ## Concrete fixtures for the claim theorems -/

/-- `isinstance(v, dict)`. -/
def isDict : Json → Bool
  | .jobj _ => true
  | _ => false

/-- Strategy (2) written from the words of the spec, for comparison with the
source: scan the `fields` values for an entry whose label matches and take
its (non-empty) value — with no condition on `fields[slug]`. -/
def specStrat2 (kvs : List (String × Json)) (label : String) : Option String :=
  match orEmptyObj (objGetD kvs "fields") with
  | .jobj fkvs =>
    match labelScan fkvs label with
    | some (.jobj o) =>
      if valNonEmpty (objGetD o "value") then some (pyStr (objGetD o "value")) else none
    | _ => none
  | _ => none

/-- Payload whose `fields[quiz_attr_2]` is a truthy dict with an empty value
while another `fields` entry carries the matching label with a value. -/
def payloadC3 : List (String × Json) :=
  [("fields", Json.jobj
     [("quiz_attr_2", Json.jobj [("label", Json.jstr "Other"), ("value", Json.jstr "")]),
      ("extra", Json.jobj
        [("label", Json.jstr studentNameLabel), ("value", Json.jstr "Jane Doe")])])]

/-- Payload whose `fields[quiz_attr_2]` is a raw string, with a fallback
`custom_field_values` entry. -/
def payloadC10 : List (String × Json) :=
  [("fields", Json.jobj [("quiz_attr_2", Json.jstr "Jane Doe")]),
   ("custom_field_values", Json.jobj [("quiz_attr_2", Json.jstr "Carol")])]

/-- A request carrying the minimal valid JSON body. -/
def reqQ : Request :=
  ⟨Except.ok (Json.jobj [("result_id", Json.jint 1), ("quiz_title", Json.jstr "Q")]), []⟩

/-- A stored record for `result_id` 1 with a `quiz_id` already set. -/
def recOld : ResultRecord :=
  { name := 0, result_id := 1, quiz_title := "Old", raw_payload := "old",
    quiz_id := some 7 }

/-- The document values the minimal payload derives. -/
def dvQ : DocValues :=
  { result_id := 1, quiz_title := "Q",
    raw_payload := "\x7b\"result_id\":1,\"quiz_title\":\"Q\"\x7d",
    quiz_id := none, score_percentage := none, final_score := none, score_by := none,
    score_type := none, points := none, duration_seconds := none, start_time := none,
    end_time := none, submitted_at := none, student_name := none, student_id := none,
    tester_name := none, user_email := none, user_phone := none, user_ip := none,
    integration_source := none }

/-- The record the minimal payload inserts into the empty store. -/
def recQ : ResultRecord :=
  { name := 0, result_id := 1, quiz_title := "Q",
    raw_payload := "\x7b\"result_id\":1,\"quiz_title\":\"Q\"\x7d" }

/-- The record after merging the minimal payload into `recOld`. -/
def recMerged : ResultRecord :=
  { name := 0, result_id := 1, quiz_title := "Q",
    raw_payload := "\x7b\"result_id\":1,\"quiz_title\":\"Q\"\x7d",
    quiz_id := some 7 }

/-! ## The coercions over the full value domain

`json.loads` does not only yield finite JSON values: with its default
`allow_nan=True` it accepts the literals `Infinity`, `-Infinity` and `NaN`,
and an integer literal of any length.  `int()` and `float()` raise
`OverflowError` on some of these — an exception the coercion helpers'
`except (TypeError, ValueError)` clauses do not catch — so the coercions
over this domain are fallible, with `Except.error` an escaping exception. -/

/-- A payload value as `json.loads` can yield it: a finite JSON value, or one
of the non-finite floats the Python parser also accepts by default
(`Infinity`, `-Infinity`, `NaN`). -/
inductive PVal where
  | fin (v : Json)
  | inf (neg : Bool)
  | nan
deriving DecidableEq, Repr

/-- The least magnitude at which CPython `float()` on an integer raises
`OverflowError`: the conversion rounds to nearest, and from this midpoint on
the result would round to `2 ^ 1024`, past the largest double. -/
def floatOvf : Nat := 2 ^ 1024 - 2 ^ 970

/-- Whether a JSON value is an integer — the only finite shape on which
`float()` can overflow (`float()` on a numeric string saturates to the
infinities instead of raising). -/
def isIntJ : Json → Bool
  | .jint _ => true
  | _ => false

/-- `_to_int` over the full value domain: `int()` on an infinite float raises
`OverflowError`, which `except (TypeError, ValueError)` does not catch, so
the exception escapes; `int()` on `nan` raises `ValueError`, which is caught
to `None`; finite values follow `to_int` and never raise (Python integers
are arbitrary precision). -/
def to_int_v : PVal → Except Unit (Option Int)
  | .fin v => .ok (to_int v)
  | .inf _ => .error ()
  | .nan => .ok none

/-- `_to_float` over the full value domain: `float()` on an integer at or
beyond `floatOvf` raises `OverflowError`, which `except (TypeError,
ValueError)` does not catch, so the exception escapes; every other value
follows the caught path — the infinite and `nan` floats pass through
`float()` unchanged. -/
def to_float_v : PVal → Except Unit (Option PyF)
  | .fin (Json.jint n) =>
    if floatOvf ≤ n.natAbs then .error ()
    else .ok (to_float (Json.jint n))
  | .fin v => .ok (to_float v)
  | .inf neg => .ok (some (.inf neg))
  | .nan => .ok (some .nan)

/-! ## The claims -/

/-- C3 counterexample: the spec-worded strategy (2) finds the label-matched
value, but the source runs the label scan only when `fields[slug]` is falsy,
so on this payload the extraction yields `None` instead. -/
theorem C3_cex :
    specStrat2 payloadC3 studentNameLabel = some "Jane Doe" ∧
    extract_custom_value payloadC3 "quiz_attr_2" studentNameLabel = none := by
  decide

/-- C3 (amended): `_extract_custom_value` resolves the four strategies in
order with the first non-empty match winning — where strategy (2), the label
scan of `fields`, is attempted only when `fields[slug]` is absent or falsy. -/
theorem C3_extract_strategies (kvs : List (String × Json)) (slug label : String) :
    extract_custom_value kvs slug label = extractRef kvs slug label :=
  extract_eq_ref kvs slug label

/-- C7 counterexample: `int()` on the infinite float that `json.loads`
yields for the `Infinity` literal it accepts by default raises
`OverflowError`, which `except (TypeError, ValueError)` does not catch —
`_to_int` raises on that input instead of returning `None`. -/
theorem C7_cex : to_int_v (.inf false) = Except.error () := rfl

/-- C7 (amended): `_to_int` sends `None`, the empty string and the string
`null` to `None`, parses numeric strings such as `42`, sends unparsable
values such as `abc` to `None`, and returns an integer or `None` without
raising on every finite value; on an infinite float, however, `int()` raises
`OverflowError` uncaught by the `except (TypeError, ValueError)` clause,
while on `nan` it raises `ValueError`, which is caught to `None`. -/
theorem C7_to_int_coercion (v : Json) :
    to_int Json.jnull = none ∧ to_int (Json.jstr "") = none ∧
    to_int (Json.jstr "null") = none ∧ to_int (Json.jstr "42") = some 42 ∧
    to_int (Json.jstr "abc") = none ∧
    (to_int v = none ∨ ∃ n : Int, to_int v = some n) ∧
    to_int_v (.fin v) = Except.ok (to_int v) ∧
    (∀ b, to_int_v (.inf b) = Except.error ()) ∧
    to_int_v PVal.nan = Except.ok none := by
  refine ⟨by decide, by decide, by decide, by decide, by decide, ?_, rfl, fun b => rfl, rfl⟩
  cases h : to_int v with
  | none => exact Or.inl rfl
  | some n => exact Or.inr ⟨n, rfl⟩

set_option maxRecDepth 16384 in
set_option exponentiation.threshold 1100 in
/-- C8 counterexample: a 401-digit integer literal parses into the payload,
and `float()` on the resulting integer raises `OverflowError`, which
`except (TypeError, ValueError)` does not catch — `_to_float` raises on that
input instead of returning a value or `None`. -/
theorem C8_cex :
    parseJson (String.mk ('1' :: List.replicate 400 '0')) = some (Json.jint (10 ^ 400)) ∧
    to_float_v (.fin (Json.jint (10 ^ 400))) = Except.error () := by
  decide

/-- C8 (amended): `_to_float` returns a value or `None` without raising on
every value except an integer whose magnitude reaches the double range
(`floatOvf`), where `float()` raises `OverflowError` uncaught by the
`except (TypeError, ValueError)` clause; `_to_datetime` is total — `None`
on falsy input, every exception caught — and every non-`None` timestamp it
returns has the shape `YYYY-MM-DD HH:MM:SS`. -/
theorem C8_total_coercions (gdt : Json → Option DT) (v : Json) (n : Int) :
    (∀ b, to_float_v (.inf b) = Except.ok (some (PyF.inf b))) ∧
    to_float_v PVal.nan = Except.ok (some PyF.nan) ∧
    (floatOvf ≤ n.natAbs → to_float_v (.fin (Json.jint n)) = Except.error ()) ∧
    (n.natAbs < floatOvf →
      to_float_v (.fin (Json.jint n)) = Except.ok (to_float (Json.jint n))) ∧
    (isIntJ v = false → to_float_v (.fin v) = Except.ok (to_float v)) ∧
    (pyTruthy v = false → to_datetime gdt v = none) ∧
    (to_datetime gdt v = none ∨ ∃ s, to_datetime gdt v = some s ∧ normTs s = true) := by
  refine ⟨fun b => rfl, rfl, ?_, ?_, ?_, ?_, ?_⟩
  · intro h
    show (if floatOvf ≤ n.natAbs then Except.error ()
      else Except.ok (to_float (Json.jint n))) = Except.error ()
    rw [if_pos h]
  · intro h
    show (if floatOvf ≤ n.natAbs then Except.error ()
      else Except.ok (to_float (Json.jint n))) = Except.ok (to_float (Json.jint n))
    rw [if_neg (Nat.not_le.mpr h)]
  · intro h
    cases v with
    | jint m => simp [isIntJ] at h
    | jnull => rfl
    | jbool b => rfl
    | jfloat m s => rfl
    | jstr s => rfl
    | jarr l => rfl
    | jobj o => rfl
  · intro h
    rw [to_datetime, if_pos (by simp [h])]
  · rw [to_datetime]
    by_cases hp : pyTruthy v = true
    · rw [if_neg (not_not_intro hp)]
      cases hg : gdt v with
      | none => exact Or.inl rfl
      | some d => exact Or.inr ⟨strftimeYmdHMS d, rfl, normTs_strftime d⟩
    · rw [if_pos hp]
      exact Or.inl rfl

set_option maxRecDepth 16384 in
set_option exponentiation.threshold 1100 in
/-- C8 witness: the amended clauses at concrete inputs — the escaping
overflow at `10 ^ 400`, the caught path at the string `90`, and the
falsy-input clause at `None`. -/
theorem C8_witness :
    to_float_v (.fin (Json.jint (10 ^ 400))) = Except.error () ∧
    to_float_v (.fin (Json.jstr "90")) = Except.ok (to_float (Json.jstr "90")) ∧
    to_datetime gdt0 Json.jnull = none := by
  refine ⟨(C8_total_coercions gdt0 (Json.jstr "90") (10 ^ 400)).2.2.1 (by decide),
    (C8_total_coercions gdt0 (Json.jstr "90") (10 ^ 400)).2.2.2.2.1 rfl,
    (C8_total_coercions gdt0 Json.jnull 0).2.2.2.2.2.1 rfl⟩

/-- C9: when the JSON body is unavailable or falsy and the form-dict fallback
resolves to a falsy structure, the endpoint answers the missing-payload
error and the store is untouched. -/
theorem C9_missing_payload (gdt : Json → Option DT) (req : Request)
    (store : List ResultRecord) (f : Faults)
    (hbody : ∀ d, req.getJson = Except.ok d → pyTruthy d = false)
    (hform : pyTruthy (loadFormFallback req.formDict) = false) :
    submit_quiz_result gdt req store f = .ok (.err missingPayloadMsg, store) := by
  have hp : pyTruthy (load_payload req) = false := by
    unfold load_payload
    cases hg : req.getJson with
    | error e => exact hform
    | ok d =>
      dsimp only
      rw [if_neg (by simp [hbody d hg])]
      exact hform
  unfold submit_quiz_result
  dsimp only
  rw [if_pos (by simp [hp])]

/-- C9 witness: no JSON body and an empty form dict. -/
theorem C9_witness :
    submit_quiz_result gdt0 ⟨Except.error (), []⟩ [] noFaults =
      .ok (.err missingPayloadMsg, []) :=
  C9_missing_payload gdt0 ⟨Except.error (), []⟩ [] noFaults
    (fun d h => nomatch h) (by decide)

/-- C10: a truthy non-dict under `fields[slug]` contributes nothing — the
`fields` block yields `None`, and extraction falls through to the
`custom_fields` list, then `custom_field_values`, and otherwise `None`. -/
theorem C10_raw_fields_value_ignored (kvs fkvs : List (String × Json)) (slug label : String)
    (hf : orEmptyObj (objGetD kvs "fields") = Json.jobj fkvs)
    (ht : pyTruthy (objGetD fkvs slug) = true)
    (hnd : isDict (objGetD fkvs slug) = false) :
    extractBlock12 kvs slug label = none ∧
    extract_custom_value kvs slug label = extract34 kvs slug label := by
  have hb : extractBlock12 kvs slug label = none := by
    unfold extractBlock12 fieldsItem
    rw [hf]
    dsimp only
    rw [if_pos ht]
    cases hit : objGetD fkvs slug with
    | jobj o => rw [hit] at hnd; simp [isDict] at hnd
    | jnull => rfl
    | jbool b => rfl
    | jint n => rfl
    | jfloat m s => rfl
    | jstr s => rfl
    | jarr l => rfl
  refine ⟨hb, ?_⟩
  unfold extract_custom_value
  rw [hb]

/-- C10 witness: with a raw string under `fields[quiz_attr_2]`, extraction
falls through to the later sources. -/
theorem C10_witness :
    extractBlock12 payloadC10 "quiz_attr_2" studentNameLabel = none ∧
    extract_custom_value payloadC10 "quiz_attr_2" studentNameLabel =
      extract34 payloadC10 "quiz_attr_2" studentNameLabel :=
  C10_raw_fields_value_ignored payloadC10 [("quiz_attr_2", Json.jstr "Jane Doe")]
    "quiz_attr_2" studentNameLabel (by decide) (by decide) (by decide)

/-- C1 counterexample: `result_id` 0 coerces to an integer and `quiz_title`
is present and non-empty, yet `if not result_id` rejects the submission with
the required-fields error. -/
theorem C1_cex :
    to_int (objGetD [("result_id", Json.jint 0), ("quiz_title", Json.jstr "Quiz A")]
      "result_id") = some 0 ∧
    submit_quiz_result gdt0
      ⟨Except.ok (Json.jobj [("result_id", Json.jint 0), ("quiz_title", Json.jstr "Quiz A")]),
        []⟩ [] noFaults = .ok (.err requiredMsg, []) := by
  decide

/-- C1 (amended): once the payload resolves to a non-empty dict, the endpoint
answers the required-fields error with the store unchanged exactly when
`_to_int(result_id)` is `None` or `0`, or `quiz_title` is absent or falsy —
`if not result_id` also rejects a zero `result_id` (see the counterexample),
and `if not quiz_title` also rejects a present-but-falsy title. -/
theorem C1_required_validation (gdt : Json → Option DT) (req : Request)
    (store : List ResultRecord) (f : Faults) (kvs : List (String × Json))
    (hload : load_payload req = Json.jobj kvs) (ht : pyTruthy (Json.jobj kvs) = true) :
    (submit_quiz_result gdt req store f = .ok (.err requiredMsg, store) ↔
      to_int (objGetD kvs "result_id") = none ∨
      to_int (objGetD kvs "result_id") = some 0 ∨
      pyTruthy (objGetD kvs "quiz_title") = false) := by
  rw [submit_jobj gdt req store f kvs hload ht]
  cases hti : to_int (objGetD kvs "result_id") with
  | none => simp
  | some rid =>
    dsimp only
    by_cases hc : rid = 0 ∨ ¬ pyTruthy (objGetD kvs "quiz_title") = true
    · rw [if_pos hc]
      constructor
      · intro _
        rcases hc with h0 | hq
        · subst h0
          exact Or.inr (Or.inl rfl)
        · simp only [Bool.not_eq_true] at hq
          exact Or.inr (Or.inr hq)
      · intro _
        rfl
    · rw [if_neg hc]
      push_neg at hc
      constructor
      · intro hres
        exfalso
        cases hdf : deriveFields gdt kvs rid (objGetD kvs "quiz_title") with
        | error e => rw [hdf] at hres; exact Except.noConfusion hres
        | ok dv =>
          rw [hdf] at hres
          dsimp only at hres
          by_cases hlk : f.lookup = true
          · rw [if_pos hlk] at hres
            exact Except.noConfusion hres
          · rw [if_neg hlk] at hres
            cases hfind : store.find? (fun r => r.result_id == rid) with
            | some r0 =>
              rw [hfind] at hres
              dsimp only at hres
              by_cases hflt : f.getDoc = true ∨ f.save = true ∨ f.commit = true
              · rw [if_pos hflt] at hres
                injection hres with hres
                injection hres with h1 h2
                injection h1 with hm
                exact absurd hm (by decide)
              · rw [if_neg hflt] at hres
                injection hres with hres
                injection hres with h1 h2
                exact Resp.noConfusion h1
            | none =>
              rw [hfind] at hres
              dsimp only at hres
              by_cases hflt : f.insert = true ∨ f.commit = true
              · rw [if_pos hflt] at hres
                injection hres with hres
                injection hres with h1 h2
                injection h1 with hm
                exact absurd hm (by decide)
              · rw [if_neg hflt] at hres
                injection hres with hres
                injection hres with h1 h2
                exact Resp.noConfusion h1
      · intro hcon
        exfalso
        rcases hcon with h | h | h
        · exact Option.noConfusion h
        · injection h with h
          exact hc.1 h
        · rw [hc.2] at h
          exact Bool.noConfusion h

/-- C1 witness: the amended equivalence at a concrete request lacking
`result_id`. -/
theorem C1_witness :
    (submit_quiz_result gdt0 ⟨Except.ok (Json.jobj [("quiz_title", Json.jstr "Q")]), []⟩ []
        noFaults = .ok (.err requiredMsg, []) ↔
      to_int (objGetD [("quiz_title", Json.jstr "Q")] "result_id") = none ∨
      to_int (objGetD [("quiz_title", Json.jstr "Q")] "result_id") = some 0 ∨
      pyTruthy (objGetD [("quiz_title", Json.jstr "Q")] "quiz_title") = false) :=
  C1_required_validation gdt0 ⟨Except.ok (Json.jobj [("quiz_title", Json.jstr "Q")]), []⟩ []
    noFaults [("quiz_title", Json.jstr "Q")] (by decide) (by decide)

/-- C2 counterexample: with a failing `frappe.get_all`, the endpoint raises
to the caller instead of answering the generic error message — the lookup
sits outside the `try` block. -/
theorem C2_cex :
    submit_quiz_result gdt0
      ⟨Except.ok (Json.jobj [("result_id", Json.jint 1), ("quiz_title", Json.jstr "Q")]), []⟩
      [] { lookup := true } = Except.error () := by
  decide

/-- C2 (amended): failures of the store operations inside the `try` block
(`get_doc`/`save` on the update path, `insert` on the create path, `commit`)
are caught, answering the generic message with the rolled-back (unchanged)
store; a failing lookup, being outside the `try`, escapes as an exception. -/
theorem C2_persistence_faults (gdt : Json → Option DT) (req : Request)
    (store : List ResultRecord) (f : Faults) (kvs : List (String × Json)) (rid : Int)
    (dv : DocValues)
    (hload : load_payload req = Json.jobj kvs)
    (hrid : to_int (objGetD kvs "result_id") = some rid) (hrid0 : ¬ rid = 0)
    (hqt : pyTruthy (objGetD kvs "quiz_title") = true)
    (hdf : deriveFields gdt kvs rid (objGetD kvs "quiz_title") = Except.ok dv) :
    (f.lookup = true → submit_quiz_result gdt req store f = Except.error ()) ∧
    (∀ r0, f.lookup = false → store.find? (fun r => r.result_id == rid) = some r0 →
      f.getDoc = true ∨ f.save = true ∨ f.commit = true →
      submit_quiz_result gdt req store f = .ok (.err unexpectedMsg, store)) ∧
    (f.lookup = false → store.find? (fun r => r.result_id == rid) = none →
      f.insert = true ∨ f.commit = true →
      submit_quiz_result gdt req store f = .ok (.err unexpectedMsg, store)) := by
  rw [submit_derived gdt req store f kvs rid dv hload hrid hrid0 hqt hdf]
  refine ⟨?_, ?_, ?_⟩
  · intro hlk
    rw [if_pos hlk]
  · intro r0 hlk hfind hflt
    rw [if_neg (by simp [hlk]), hfind]
    dsimp only
    rw [if_pos hflt]
  · intro hlk hfind hflt
    rw [if_neg (by simp [hlk]), hfind]
    dsimp only
    rw [if_pos hflt]

/-- C2 witness: a failing `frappe.get_doc` on the update path answers the
generic message and leaves the store unchanged. -/
theorem C2_witness :
    submit_quiz_result gdt0 reqQ [recOld] { getDoc := true } =
      .ok (.err unexpectedMsg, [recOld]) :=
  (C2_persistence_faults gdt0 reqQ [recOld] { getDoc := true }
      [("result_id", Json.jint 1), ("quiz_title", Json.jstr "Q")] 1 dvQ
      (by decide) (by decide) (by decide) (by decide) (by decide)).2.1
    recOld rfl (by decide) (Or.inl rfl)

/-- C4: after any non-raising run of the endpoint on a well-formed store the
store is still well-formed — docnames `0..n-1` and at most one record per
`result_id` — at most one record was added (an existing `result_id` is
updated in place, not duplicated), and no record was deleted: every stored
docname survives with its `result_id`. -/
theorem C4_at_most_one_per_result_id (gdt : Json → Option DT) (req : Request)
    (store store2 : List ResultRecord) (f : Faults) (resp : Resp)
    (hok : StoreOk store)
    (hres : submit_quiz_result gdt req store f = .ok (resp, store2)) :
    StoreOk store2 ∧ store2.length ≤ store.length + 1 ∧
      ∀ r ∈ store, ∃ r2 ∈ store2, r2.name = r.name ∧ r2.result_id = r.result_id := by
  rcases submit_inv gdt req store f resp store2 hres with h |
    ⟨kvs, rid, dv, r0, hlp, hti, hdf, hfind, h2⟩ |
    ⟨kvs, rid, dv, hlp, hti, hdf, hfind, h2⟩
  · subst h
    exact ⟨hok, Nat.le_succ _, fun r hr => ⟨r, hr, rfl, rfl⟩⟩
  · subst h2
    obtain ⟨hok2, hmem⟩ := storeOk_update hok hfind (deriveFields_rid hdf).1
    exact ⟨hok2, by rw [List.length_map]; exact Nat.le_succ _, hmem⟩
  · subst h2
    obtain ⟨hok2, hmem⟩ := storeOk_insert hok hfind (deriveFields_rid hdf).1
    exact ⟨hok2, by simp, hmem⟩

/-- C4 witness: inserting the minimal payload into the empty store yields a
well-formed one-record store. -/
theorem C4_witness : StoreOk [recQ] :=
  (C4_at_most_one_per_result_id gdt0 reqQ [] [recQ] noFaults (Resp.ok 0 1)
    ⟨rfl, List.nodup_nil⟩ (by decide)).1

/-- C5: on the update path the endpoint answers success and rewrites only the
found record through `mergeRecord`, and in the merged record every optional
field whose derived value is `None` keeps the stored value while every
non-`None` derived value overwrites it (`result_id`, `quiz_title` and
`raw_payload` are always non-`None` and always overwrite). -/
theorem C5_null_fields_preserved (gdt : Json → Option DT) (req : Request)
    (store : List ResultRecord) (f : Faults) (kvs : List (String × Json)) (rid : Int)
    (dv : DocValues) (r0 : ResultRecord)
    (hload : load_payload req = Json.jobj kvs)
    (hrid : to_int (objGetD kvs "result_id") = some rid) (hrid0 : ¬ rid = 0)
    (hqt : pyTruthy (objGetD kvs "quiz_title") = true)
    (hdf : deriveFields gdt kvs rid (objGetD kvs "quiz_title") = Except.ok dv)
    (hlk : f.lookup = false)
    (hfind : store.find? (fun r => r.result_id == rid) = some r0)
    (hgd : f.getDoc = false) (hsv : f.save = false) (hcm : f.commit = false) :
    submit_quiz_result gdt req store f =
      .ok (.ok r0.name rid,
        store.map (fun r => if r.name = r0.name then mergeRecord r dv else r)) ∧
    ∀ r : ResultRecord,
      (mergeRecord r dv).name = r.name ∧
      (mergeRecord r dv).result_id = dv.result_id ∧
      (mergeRecord r dv).quiz_title = dv.quiz_title ∧
      (mergeRecord r dv).raw_payload = dv.raw_payload ∧
      (dv.quiz_id = none → (mergeRecord r dv).quiz_id = r.quiz_id) ∧
      (¬ dv.quiz_id = none → (mergeRecord r dv).quiz_id = dv.quiz_id) ∧
      (dv.score_percentage = none → (mergeRecord r dv).score_percentage = r.score_percentage) ∧
      (¬ dv.score_percentage = none →
        (mergeRecord r dv).score_percentage = dv.score_percentage) ∧
      (dv.final_score = none → (mergeRecord r dv).final_score = r.final_score) ∧
      (¬ dv.final_score = none → (mergeRecord r dv).final_score = dv.final_score) ∧
      (dv.score_by = none → (mergeRecord r dv).score_by = r.score_by) ∧
      (¬ dv.score_by = none → (mergeRecord r dv).score_by = dv.score_by) ∧
      (dv.score_type = none → (mergeRecord r dv).score_type = r.score_type) ∧
      (¬ dv.score_type = none → (mergeRecord r dv).score_type = dv.score_type) ∧
      (dv.points = none → (mergeRecord r dv).points = r.points) ∧
      (¬ dv.points = none → (mergeRecord r dv).points = dv.points) ∧
      (dv.duration_seconds = none → (mergeRecord r dv).duration_seconds = r.duration_seconds) ∧
      (¬ dv.duration_seconds = none →
        (mergeRecord r dv).duration_seconds = dv.duration_seconds) ∧
      (dv.start_time = none → (mergeRecord r dv).start_time = r.start_time) ∧
      (¬ dv.start_time = none → (mergeRecord r dv).start_time = dv.start_time) ∧
      (dv.end_time = none → (mergeRecord r dv).end_time = r.end_time) ∧
      (¬ dv.end_time = none → (mergeRecord r dv).end_time = dv.end_time) ∧
      (dv.submitted_at = none → (mergeRecord r dv).submitted_at = r.submitted_at) ∧
      (¬ dv.submitted_at = none → (mergeRecord r dv).submitted_at = dv.submitted_at) ∧
      (dv.student_name = none → (mergeRecord r dv).student_name = r.student_name) ∧
      (¬ dv.student_name = none → (mergeRecord r dv).student_name = dv.student_name) ∧
      (dv.student_id = none → (mergeRecord r dv).student_id = r.student_id) ∧
      (¬ dv.student_id = none → (mergeRecord r dv).student_id = dv.student_id) ∧
      (dv.tester_name = none → (mergeRecord r dv).tester_name = r.tester_name) ∧
      (¬ dv.tester_name = none → (mergeRecord r dv).tester_name = dv.tester_name) ∧
      (dv.user_email = none → (mergeRecord r dv).user_email = r.user_email) ∧
      (¬ dv.user_email = none → (mergeRecord r dv).user_email = dv.user_email) ∧
      (dv.user_phone = none → (mergeRecord r dv).user_phone = r.user_phone) ∧
      (¬ dv.user_phone = none → (mergeRecord r dv).user_phone = dv.user_phone) ∧
      (dv.user_ip = none → (mergeRecord r dv).user_ip = r.user_ip) ∧
      (¬ dv.user_ip = none → (mergeRecord r dv).user_ip = dv.user_ip) ∧
      (dv.integration_source = none →
        (mergeRecord r dv).integration_source = r.integration_source) ∧
      (¬ dv.integration_source = none →
        (mergeRecord r dv).integration_source = dv.integration_source) := by
  constructor
  · rw [submit_derived gdt req store f kvs rid dv hload hrid hrid0 hqt hdf,
      if_neg (by simp [hlk]), hfind]
    dsimp only
    rw [if_neg (by simp [hgd, hsv, hcm])]
  · intro r
    exact ⟨rfl, rfl, rfl, rfl,
      fun h => oupd_of_none h, fun h => oupd_of_not_none h,
      fun h => oupd_of_none h, fun h => oupd_of_not_none h,
      fun h => oupd_of_none h, fun h => oupd_of_not_none h,
      fun h => oupd_of_none h, fun h => oupd_of_not_none h,
      fun h => oupd_of_none h, fun h => oupd_of_not_none h,
      fun h => oupd_of_none h, fun h => oupd_of_not_none h,
      fun h => oupd_of_none h, fun h => oupd_of_not_none h,
      fun h => oupd_of_none h, fun h => oupd_of_not_none h,
      fun h => oupd_of_none h, fun h => oupd_of_not_none h,
      fun h => oupd_of_none h, fun h => oupd_of_not_none h,
      fun h => oupd_of_none h, fun h => oupd_of_not_none h,
      fun h => oupd_of_none h, fun h => oupd_of_not_none h,
      fun h => oupd_of_none h, fun h => oupd_of_not_none h,
      fun h => oupd_of_none h, fun h => oupd_of_not_none h,
      fun h => oupd_of_none h, fun h => oupd_of_not_none h,
      fun h => oupd_of_none h, fun h => oupd_of_not_none h,
      fun h => oupd_of_none h, fun h => oupd_of_not_none h⟩

/-- C5 witness: resubmitting `result_id` 1 with no `quiz_id` keeps the stored
`quiz_id` and overwrites the title and raw payload. -/
theorem C5_witness :
    submit_quiz_result gdt0 reqQ [recOld] noFaults = .ok (.ok 0 1, [recMerged]) := by
  rw [(C5_null_fields_preserved gdt0 reqQ [recOld] noFaults
      [("result_id", Json.jint 1), ("quiz_title", Json.jstr "Q")] 1 dvQ recOld
      (by decide) (by decide) (by decide) (by decide) (by decide) rfl (by decide)
      rfl rfl rfl).1]
  decide

/-- C6: the `raw_payload` a success run writes is the compact serialization
of the resolved payload, and parsing it back yields that payload exactly —
for payload dicts with pairwise-distinct keys and canonical number values,
the shape every dict produced by `json.loads` has; both the insert and the
update record shapes store it verbatim. -/
theorem C6_raw_payload_roundtrip (gdt : Json → Option DT) (kvs : List (String × Json))
    (rid : Int) (qt : Json) (dv : DocValues)
    (hwf : jwf (Json.jobj kvs) = true)
    (hdf : deriveFields gdt kvs rid qt = Except.ok dv) :
    dv.raw_payload = dumpsStr (Json.jobj kvs) ∧
    parseJson dv.raw_payload = some (Json.jobj kvs) ∧
    (∀ nm, (newRecord nm dv).raw_payload = dv.raw_payload) ∧
    (∀ r, (mergeRecord r dv).raw_payload = dv.raw_payload) := by
  have h1 := (deriveFields_rid hdf).2.2
  exact ⟨h1, by rw [h1]; exact parse_dumps _ hwf, fun nm => rfl, fun r => rfl⟩

/-- C6 witness: the round trip at the concrete two-field payload. -/
theorem C6_witness :
    dvQ.raw_payload =
      dumpsStr (Json.jobj [("result_id", Json.jint 1), ("quiz_title", Json.jstr "Q")]) ∧
    parseJson dvQ.raw_payload =
      some (Json.jobj [("result_id", Json.jint 1), ("quiz_title", Json.jstr "Q")]) := by
  have h := C6_raw_payload_roundtrip gdt0
    [("result_id", Json.jint 1), ("quiz_title", Json.jstr "Q")] 1 (Json.jstr "Q") dvQ
    (by decide) (by decide)
  exact ⟨h.1, h.2.1⟩
